import Mathlib

/-!
Verification of the Rackula rack-elevation geometry code.

The development shallowly embeds the numeric parts of the repository:
JavaScript numbers are modelled by `JSNum` (a finite exact rational, an
infinity, or NaN); finite values are carried by `JQ`, an unnormalized
integer-numerator / natural-denominator pair, so that every embedded
function is executable by kernel reduction.  `JQ.val` interprets a finite
value as a Mathlib rational for symbolic reasoning.
-/

/-- Unnormalized exact rational: numerator over denominator.  A denominator
of zero never arises from the embedded code paths; well-formedness is
tracked by `JQ.WF`. -/
structure JQ where
  num : Int
  den : Nat
  deriving DecidableEq, Repr

/-- Interpretation of a `JQ` as a Mathlib rational. -/
def JQ.val (x : JQ) : ℚ := (x.num : ℚ) / (x.den : ℚ)

/-- Well-formedness: the denominator is nonzero. -/
def JQ.WF (x : JQ) : Prop := x.den ≠ 0

instance (x : JQ) : Decidable x.WF := by unfold JQ.WF; infer_instance

/-- Embed an integer. -/
def JQ.ofInt (n : Int) : JQ := ⟨n, 1⟩

/-- Embed a natural number. -/
def JQ.ofNat (n : Nat) : JQ := ⟨(n : Int), 1⟩

/-- Addition. -/
def JQ.add (x y : JQ) : JQ := ⟨x.num * y.den + y.num * x.den, x.den * y.den⟩

/-- Subtraction. -/
def JQ.sub (x y : JQ) : JQ := ⟨x.num * y.den - y.num * x.den, x.den * y.den⟩

/-- Multiplication. -/
def JQ.mul (x y : JQ) : JQ := ⟨x.num * y.num, x.den * y.den⟩

/-- Negation. -/
def JQ.neg (x : JQ) : JQ := ⟨-x.num, x.den⟩

/-- Division; the sign is moved into the numerator so the denominator stays
a natural number.  Only called (through `JSNum.div`) when `y.num ≠ 0`. -/
def JQ.div (x y : JQ) : JQ :=
  if y.num < 0 then ⟨-(x.num * (y.den : Int)), x.den * y.num.natAbs⟩
  else ⟨x.num * (y.den : Int), x.den * y.num.natAbs⟩

/-- Semantic strict comparison (valid for well-formed operands). -/
def JQ.blt (x y : JQ) : Bool := x.num * (y.den : Int) < y.num * (x.den : Int)

/-- Semantic non-strict comparison (valid for well-formed operands). -/
def JQ.ble (x y : JQ) : Bool := x.num * (y.den : Int) ≤ y.num * (x.den : Int)

/-- Semantic equality test (valid for well-formed operands). -/
def JQ.beqv (x y : JQ) : Bool := x.num * (y.den : Int) == y.num * (x.den : Int)

/-- Floor to an integer (valid for well-formed operands). -/
def JQ.floorI (x : JQ) : Int := Int.fdiv x.num (x.den : Int)

/-- Ceiling to an integer (valid for well-formed operands). -/
def JQ.ceilI (x : JQ) : Int := -(Int.fdiv (-x.num) (x.den : Int))

theorem JQ.WF.add {x y : JQ} (hx : x.WF) (hy : y.WF) : (x.add y).WF :=
  Nat.mul_ne_zero hx hy

theorem JQ.WF.sub {x y : JQ} (hx : x.WF) (hy : y.WF) : (x.sub y).WF :=
  Nat.mul_ne_zero hx hy

theorem JQ.WF.mul {x y : JQ} (hx : x.WF) (hy : y.WF) : (x.mul y).WF :=
  Nat.mul_ne_zero hx hy

theorem JQ.val_add {x y : JQ} (hx : x.WF) (hy : y.WF) :
    (x.add y).val = x.val + y.val := by
  unfold JQ.val JQ.add
  have hx0 : ((x.den : ℚ)) ≠ 0 := by exact_mod_cast hx
  have hy0 : ((y.den : ℚ)) ≠ 0 := by exact_mod_cast hy
  push_cast
  field_simp

theorem JQ.val_sub {x y : JQ} (hx : x.WF) (hy : y.WF) :
    (x.sub y).val = x.val - y.val := by
  unfold JQ.val JQ.sub
  have hx0 : ((x.den : ℚ)) ≠ 0 := by exact_mod_cast hx
  have hy0 : ((y.den : ℚ)) ≠ 0 := by exact_mod_cast hy
  push_cast
  field_simp
  ring

theorem JQ.val_mul {x y : JQ} (hx : x.WF) (hy : y.WF) :
    (x.mul y).val = x.val * y.val := by
  unfold JQ.val JQ.mul
  have hx0 : ((x.den : ℚ)) ≠ 0 := by exact_mod_cast hx
  have hy0 : ((y.den : ℚ)) ≠ 0 := by exact_mod_cast hy
  push_cast
  field_simp

theorem JQ.val_ofNat (n : Nat) : (JQ.ofNat n).val = (n : ℚ) := by
  simp [JQ.ofNat, JQ.val]

theorem JQ.val_ofInt (n : Int) : (JQ.ofInt n).val = (n : ℚ) := by
  simp [JQ.ofInt, JQ.val]

theorem JQ.blt_iff {x y : JQ} (hx : x.WF) (hy : y.WF) :
    x.blt y = true ↔ x.val < y.val := by
  unfold JQ.blt JQ.val
  have hx0 : (0:ℚ) < (x.den : ℚ) := by
    exact_mod_cast Nat.pos_of_ne_zero hx
  have hy0 : (0:ℚ) < (y.den : ℚ) := by
    exact_mod_cast Nat.pos_of_ne_zero hy
  rw [div_lt_div_iff₀ hx0 hy0]
  constructor
  · intro h
    have h2 : (x.num : ℚ) * (y.den : ℚ) < (y.num : ℚ) * (x.den : ℚ) := by
      exact_mod_cast of_decide_eq_true h
    linarith
  · intro h
    have h2 : x.num * (y.den : Int) < y.num * (x.den : Int) := by
      exact_mod_cast h
    simpa using h2

theorem JQ.ble_iff {x y : JQ} (hx : x.WF) (hy : y.WF) :
    x.ble y = true ↔ x.val ≤ y.val := by
  unfold JQ.ble JQ.val
  have hx0 : (0:ℚ) < (x.den : ℚ) := by
    exact_mod_cast Nat.pos_of_ne_zero hx
  have hy0 : (0:ℚ) < (y.den : ℚ) := by
    exact_mod_cast Nat.pos_of_ne_zero hy
  rw [div_le_div_iff₀ hx0 hy0]
  constructor
  · intro h
    have h2 : (x.num : ℚ) * (y.den : ℚ) ≤ (y.num : ℚ) * (x.den : ℚ) := by
      exact_mod_cast of_decide_eq_true h
    linarith
  · intro h
    have h2 : x.num * (y.den : Int) ≤ y.num * (x.den : Int) := by
      exact_mod_cast h
    simpa using h2

theorem JQ.beqv_iff {x y : JQ} (hx : x.WF) (hy : y.WF) :
    x.beqv y = true ↔ x.val = y.val := by
  unfold JQ.beqv JQ.val
  have hx0 : ((x.den : ℚ)) ≠ 0 := by exact_mod_cast hx
  have hy0 : ((y.den : ℚ)) ≠ 0 := by exact_mod_cast hy
  rw [div_eq_div_iff hx0 hy0]
  constructor
  · intro h
    exact_mod_cast beq_iff_eq.mp h
  · intro h
    exact beq_iff_eq.mpr (by exact_mod_cast h)

theorem JQ.val_neg (x : JQ) : x.neg.val = -x.val := by
  simp [JQ.neg, JQ.val, neg_div]

theorem JQ.floorI_eq {x : JQ} (_hx : x.WF) : x.floorI = ⌊x.val⌋ := by
  unfold JQ.floorI JQ.val
  rw [Rat.floor_intCast_div_natCast]
  exact Int.fdiv_eq_ediv _ (by exact_mod_cast Nat.zero_le x.den)

theorem JQ.ceilI_eq {x : JQ} (hx : x.WF) : x.ceilI = ⌈x.val⌉ := by
  have hwf : x.neg.WF := hx
  calc x.ceilI = -(x.neg.floorI) := rfl
    _ = -⌊x.neg.val⌋ := by rw [JQ.floorI_eq hwf]
    _ = -⌊-x.val⌋ := by rw [JQ.val_neg]
    _ = ⌈x.val⌉ := by rw [← Int.ceil_neg, neg_neg]

theorem JQ.WF.div {x y : JQ} (hx : x.WF) (hy : y.num ≠ 0) : (x.div y).WF := by
  unfold JQ.div
  split <;> exact Nat.mul_ne_zero hx (Int.natAbs_ne_zero.mpr hy)

theorem JQ.val_div {x y : JQ} (hx : x.WF) (hy : y.WF) (hy0 : y.num ≠ 0) :
    (x.div y).val = x.val / y.val := by
  unfold JQ.div JQ.val
  have hxq : ((x.den : ℚ)) ≠ 0 := by exact_mod_cast hx
  have hyq : ((y.den : ℚ)) ≠ 0 := by exact_mod_cast hy
  rcases lt_trichotomy y.num 0 with h | h | h
  · rw [if_pos h]
    have habs : ((y.num.natAbs : ℚ)) = -(y.num : ℚ) := by
      rw [Int.cast_natAbs]
      simp [abs_of_neg (a := (y.num : ℚ)) (by exact_mod_cast h)]
    have hnz : ((y.num : ℚ)) ≠ 0 := by exact_mod_cast hy0
    push_cast
    rw [habs]
    field_simp
  · exact absurd h hy0
  · rw [if_neg (by omega)]
    have habs : ((y.num.natAbs : ℚ)) = (y.num : ℚ) := by
      rw [Int.cast_natAbs]
      simp [abs_of_pos (a := (y.num : ℚ)) (by exact_mod_cast h)]
    have hnz : ((y.num : ℚ)) ≠ 0 := by exact_mod_cast hy0
    push_cast
    rw [habs]
    field_simp

/-- JavaScript number: finite exact value, signed infinity, or NaN. -/
inductive JSNum where
  | fin (x : JQ)
  | inf (pos : Bool)
  | nan
  deriving DecidableEq, Repr

/-- Shorthand for a finite integer-valued JavaScript number. -/
def JSNum.ofInt (n : Int) : JSNum := .fin (JQ.ofInt n)

/-- Shorthand for a finite natural-valued JavaScript number. -/
def JSNum.ofNat (n : Nat) : JSNum := .fin (JQ.ofNat n)

/-- Well-formedness of a JavaScript number value. -/
def JSNum.WF : JSNum → Prop
  | .fin x => x.WF
  | _ => True

/-- Sign of a finite value: true when nonnegative. -/
def JQ.sign (x : JQ) : Bool := 0 ≤ x.num

/-- JavaScript addition. -/
def JSNum.add : JSNum → JSNum → JSNum
  | .fin x, .fin y => .fin (x.add y)
  | .fin _, .inf p => .inf p
  | .inf p, .fin _ => .inf p
  | .inf p, .inf q => if p == q then .inf p else .nan
  | _, _ => .nan

/-- JavaScript negation. -/
def JSNum.neg : JSNum → JSNum
  | .fin x => .fin x.neg
  | .inf p => .inf (!p)
  | .nan => .nan

/-- JavaScript subtraction. -/
def JSNum.sub (x y : JSNum) : JSNum := x.add y.neg

/-- JavaScript multiplication. -/
def JSNum.mul : JSNum → JSNum → JSNum
  | .fin x, .fin y => .fin (x.mul y)
  | .fin x, .inf p => if x.num = 0 then .nan else .inf (p == x.sign)
  | .inf p, .fin y => if y.num = 0 then .nan else .inf (p == y.sign)
  | .inf p, .inf q => .inf (p == q)
  | _, _ => .nan

/-- JavaScript division. -/
def JSNum.div : JSNum → JSNum → JSNum
  | .fin x, .fin y =>
      if y.num = 0 then
        if x.num = 0 then .nan else .inf x.sign
      else .fin (x.div y)
  | .fin _, .inf _ => .fin ⟨0, 1⟩
  | .inf p, .fin y => .inf (p == y.sign)
  | .inf _, .inf _ => .nan
  | _, _ => .nan

/-- JavaScript Math.floor. -/
def JSNum.floor : JSNum → JSNum
  | .fin x => .fin (JQ.ofInt x.floorI)
  | .inf p => .inf p
  | .nan => .nan

/-- JavaScript Math.ceil. -/
def JSNum.ceil : JSNum → JSNum
  | .fin x => .fin (JQ.ofInt x.ceilI)
  | .inf p => .inf p
  | .nan => .nan

/-- JavaScript Math.round (half toward positive infinity). -/
def JSNum.round : JSNum → JSNum
  | .fin x => .fin (JQ.ofInt ((x.add ⟨1, 2⟩).floorI))
  | .inf p => .inf p
  | .nan => .nan

/-- JavaScript strict less-than; false whenever NaN is involved. -/
def JSNum.lt : JSNum → JSNum → Bool
  | .fin x, .fin y => x.blt y
  | .fin _, .inf p => p
  | .inf p, .fin _ => !p
  | .inf p, .inf q => !p && q
  | _, _ => false

/-- JavaScript less-or-equal; false whenever NaN is involved. -/
def JSNum.le : JSNum → JSNum → Bool
  | .fin x, .fin y => x.ble y
  | .fin _, .inf p => p
  | .inf p, .fin _ => !p
  | .inf p, .inf q => !p || q
  | _, _ => false

/-- JavaScript strict equality test on numbers; NaN is equal to nothing. -/
def JSNum.seq : JSNum → JSNum → Bool
  | .fin x, .fin y => x.beqv y
  | .inf p, .inf q => p == q
  | _, _ => false

/-- JavaScript Math.max of two values. -/
def JSNum.max2 (x y : JSNum) : JSNum :=
  match x, y with
  | .nan, _ => .nan
  | _, .nan => .nan
  | a, b => if JSNum.lt a b then b else a

/-- JavaScript Math.min of two values. -/
def JSNum.min2 (x y : JSNum) : JSNum :=
  match x, y with
  | .nan, _ => .nan
  | _, .nan => .nan
  | a, b => if JSNum.lt b a then b else a

/-- Truncation toward zero of a finite value. -/
def JQ.truncI (x : JQ) : Int := Int.tdiv x.num (x.den : Int)

/-- JavaScript remainder operator; the sign follows the dividend. -/
def JSNum.fmod : JSNum → JSNum → JSNum
  | .fin x, .fin y =>
      if y.num = 0 then .nan
      else .fin (x.sub (y.mul (JQ.ofInt ((x.div y).truncI))))
  | .fin x, .inf _ => .fin x
  | _, _ => .nan

/-!
Embedding of `generateId` from the device-utility module.  The source
takes 16 random bytes (from `crypto.getRandomValues`), forces the UUID
version and variant bits, hex-formats each byte with zero padding, and
joins the pieces with hyphens in the 8-4-4-4-12 layout.  Randomness is
modelled by passing the 16 bytes as an argument.
-/

/-- One lowercase hexadecimal digit, as produced by JavaScript
`Number.prototype.toString(16)`. -/
def hexDigitChar (n : Nat) : Char :=
  match n with
  | 0 => '0' | 1 => '1' | 2 => '2' | 3 => '3'
  | 4 => '4' | 5 => '5' | 6 => '6' | 7 => '7'
  | 8 => '8' | 9 => '9' | 10 => 'a' | 11 => 'b'
  | 12 => 'c' | 13 => 'd' | 14 => 'e' | 15 => 'f'
  | _ => '*'

/-- Fuelled hexadecimal rendering of a natural number (most significant
digit first); the fuel bounds the digit count. -/
def natToHexAux : Nat → Nat → List Char
  | 0, n => [hexDigitChar (n % 16)]
  | fuel + 1, n =>
      if n < 16 then [hexDigitChar n]
      else natToHexAux fuel (n / 16) ++ [hexDigitChar (n % 16)]

/-- Hexadecimal rendering of a natural number, as JavaScript
`toString(16)` yields for nonnegative integers. -/
def natToHexStr (n : Nat) : List Char := natToHexAux n n

/-- JavaScript `padStart(2, "0")` on a character list. -/
def padStart2 (l : List Char) : List Char :=
  if l.length < 2 then List.replicate (2 - l.length) '0' ++ l else l

/-- Hex-format one byte with zero padding: `b.toString(16).padStart(2, "0")`. -/
def byteToHexPadded (b : Nat) : List Char := padStart2 (natToHexStr b)

/-- JavaScript `slice(a, b)` on a character list. -/
def listSlice (l : List Char) (a b : Nat) : List Char := (l.drop a).take (b - a)

/-- Hyphenated 8-4-4-4-12 layout over the 32-character hex string, as in
the template-literal return of `generateId`. -/
def formatUuidHex (hex : List Char) : List Char :=
  listSlice hex 0 8 ++ ['-'] ++ listSlice hex 8 12 ++ ['-'] ++
    listSlice hex 12 16 ++ ['-'] ++ listSlice hex 16 20 ++ ['-'] ++ hex.drop 20

/-- Fallback path of `generateId`: force the version nibble to 4 and the
variant bits to 10xx, hex-format, and hyphenate. -/
def generateIdFallback (bytes : List Nat) : String :=
  let bytes1 := bytes.set 6 ((bytes.getD 6 0 &&& 15) ||| 64)
  let bytes2 := bytes1.set 8 ((bytes1.getD 8 0 &&& 63) ||| 128)
  let hex := (bytes2.map byteToHexPadded).flatten
  String.mk (formatUuidHex hex)

/-- Modelled from the spec: `crypto.randomUUID` is a platform primitive
absent from the repository; per its platform specification it generates
16 random bytes, sets the same version and variant bits as the fallback,
and formats them in the lowercase hyphenated layout. -/
def cryptoRandomUUID (bytes : List Nat) : String := generateIdFallback bytes

/-- Embedding of `generateId`: the branch on `crypto.randomUUID`
availability selects the native path or the `getRandomValues` fallback;
the 16 random bytes are an explicit argument. -/
def generateId (hasNativeRandomUUID : Bool) (bytes : List Nat) : String :=
  if hasNativeRandomUUID then cryptoRandomUUID bytes else generateIdFallback bytes

/-- Lowercase hexadecimal digit test (by code point: 0-9 or a-f). -/
def isLowerHexDigit (c : Char) : Bool :=
  ((48 ≤ c.toNat && c.toNat ≤ 57) || (97 ≤ c.toNat && c.toNat ≤ 102))

/-- Well-formed UUID v4 check: 36 characters, hyphens at positions
8, 13, 18 and 23, lowercase hex elsewhere, version nibble 4, variant
nibble one of 8, 9, a, b. -/
def isValidUuidV4Chars (l : List Char) : Bool :=
  match l with
  | u0 :: u1 :: u2 :: u3 :: u4 :: u5 :: u6 :: u7 :: u8 :: u9 :: u10 ::
    u11 :: u12 :: u13 :: u14 :: u15 :: u16 :: u17 :: u18 :: u19 :: u20 ::
    u21 :: u22 :: u23 :: u24 :: u25 :: u26 :: u27 :: u28 :: u29 :: u30 ::
    u31 :: u32 :: u33 :: u34 :: u35 :: [] =>
      u8 = '-' && u13 = '-' && u18 = '-' && u23 = '-' &&
      u14 = '4' && (u19 = '8' || u19 = '9' || u19 = 'a' || u19 = 'b') &&
      [u0,u1,u2,u3,u4,u5,u6,u7,u9,u10,u11,u12,u15,u16,u17,u20,u21,u22,
       u24,u25,u26,u27,u28,u29,u30,u31,u32,u33,u34,u35].all isLowerHexDigit
  | _ => false

/-- Well-formed UUID v4 check on a string. -/
def isValidUuidV4 (s : String) : Bool := isValidUuidV4Chars s.data

theorem natToHexAux_lt16 (fuel n : Nat) (h : n < 16) :
    natToHexAux fuel n = [hexDigitChar n] := by
  cases fuel with
  | zero => simp [natToHexAux, Nat.mod_eq_of_lt h]
  | succ f => simp [natToHexAux, h]

theorem byteToHexPadded_eq {b : Nat} (hb : b < 256) :
    byteToHexPadded b = [hexDigitChar (b / 16), hexDigitChar (b % 16)] := by
  unfold byteToHexPadded natToHexStr
  by_cases h : b < 16
  · rw [natToHexAux_lt16 _ _ h]
    have h1 : b / 16 = 0 := Nat.div_eq_of_lt h
    have h2 : b % 16 = b := Nat.mod_eq_of_lt h
    simp [padStart2, h1, h2, hexDigitChar]
  · have hpos : b ≠ 0 := by omega
    rcases Nat.exists_eq_succ_of_ne_zero hpos with ⟨f, rfl⟩
    show padStart2 (natToHexAux (f + 1) (f + 1)) = _
    rw [natToHexAux]
    simp only [if_neg h]
    have hdiv : (f + 1) / 16 < 16 := by omega
    rw [natToHexAux_lt16 _ _ hdiv]
    simp [padStart2]

theorem isLowerHexDigit_hexDigitChar {n : Nat} (h : n < 16) :
    isLowerHexDigit (hexDigitChar n) = true := by
  interval_cases n <;> decide

theorem uuidVersionNibble : ∀ y < 16,
    (y ||| 64) < 256 ∧ (y ||| 64) / 16 = 4 ∧ (y ||| 64) % 16 < 16 := by
  decide

theorem uuidVariantNibble : ∀ y < 64,
    (y ||| 128) < 256 ∧
    ((y ||| 128) / 16 = 8 ∨ (y ||| 128) / 16 = 9 ∨
      (y ||| 128) / 16 = 10 ∨ (y ||| 128) / 16 = 11) ∧
    (y ||| 128) % 16 < 16 := by
  decide

set_option maxHeartbeats 1000000 in
theorem generateIdFallback_valid (bytes : List Nat)
    (hlen : bytes.length = 16) (hb : ∀ b ∈ bytes, b < 256) :
    isValidUuidV4 (generateIdFallback bytes) = true := by
  rcases bytes with _ | ⟨b0, bytes⟩
  · simp only [List.length_cons, List.length_nil] at hlen; omega
  rcases bytes with _ | ⟨b1, bytes⟩
  · simp only [List.length_cons, List.length_nil] at hlen; omega
  rcases bytes with _ | ⟨b2, bytes⟩
  · simp only [List.length_cons, List.length_nil] at hlen; omega
  rcases bytes with _ | ⟨b3, bytes⟩
  · simp only [List.length_cons, List.length_nil] at hlen; omega
  rcases bytes with _ | ⟨b4, bytes⟩
  · simp only [List.length_cons, List.length_nil] at hlen; omega
  rcases bytes with _ | ⟨b5, bytes⟩
  · simp only [List.length_cons, List.length_nil] at hlen; omega
  rcases bytes with _ | ⟨b6, bytes⟩
  · simp only [List.length_cons, List.length_nil] at hlen; omega
  rcases bytes with _ | ⟨b7, bytes⟩
  · simp only [List.length_cons, List.length_nil] at hlen; omega
  rcases bytes with _ | ⟨b8, bytes⟩
  · simp only [List.length_cons, List.length_nil] at hlen; omega
  rcases bytes with _ | ⟨b9, bytes⟩
  · simp only [List.length_cons, List.length_nil] at hlen; omega
  rcases bytes with _ | ⟨b10, bytes⟩
  · simp only [List.length_cons, List.length_nil] at hlen; omega
  rcases bytes with _ | ⟨b11, bytes⟩
  · simp only [List.length_cons, List.length_nil] at hlen; omega
  rcases bytes with _ | ⟨b12, bytes⟩
  · simp only [List.length_cons, List.length_nil] at hlen; omega
  rcases bytes with _ | ⟨b13, bytes⟩
  · simp only [List.length_cons, List.length_nil] at hlen; omega
  rcases bytes with _ | ⟨b14, bytes⟩
  · simp only [List.length_cons, List.length_nil] at hlen; omega
  rcases bytes with _ | ⟨b15, bytes⟩
  · simp only [List.length_cons, List.length_nil] at hlen; omega
  rcases bytes with _ | ⟨b16, bytes⟩
  on_goal 2 => simp only [List.length_cons, List.length_nil] at hlen; omega
  clear hlen
  have h0 : b0 < 256 := hb b0 (by simp)
  have h1 : b1 < 256 := hb b1 (by simp)
  have h2 : b2 < 256 := hb b2 (by simp)
  have h3 : b3 < 256 := hb b3 (by simp)
  have h4 : b4 < 256 := hb b4 (by simp)
  have h5 : b5 < 256 := hb b5 (by simp)
  have h6 : b6 < 256 := hb b6 (by simp)
  have h7 : b7 < 256 := hb b7 (by simp)
  have h8 : b8 < 256 := hb b8 (by simp)
  have h9 : b9 < 256 := hb b9 (by simp)
  have h10 : b10 < 256 := hb b10 (by simp)
  have h11 : b11 < 256 := hb b11 (by simp)
  have h12 : b12 < 256 := hb b12 (by simp)
  have h13 : b13 < 256 := hb b13 (by simp)
  have h14 : b14 < 256 := hb b14 (by simp)
  have h15 : b15 < 256 := hb b15 (by simp)
  set m6 := (b6 &&& 15) ||| 64 with hm6def
  set m8 := (b8 &&& 63) ||| 128 with hm8def
  have hy6 : b6 &&& 15 < 16 := Nat.lt_succ_of_le Nat.and_le_right
  have hy8 : b8 &&& 63 < 64 := Nat.lt_succ_of_le Nat.and_le_right
  obtain ⟨hm6lt, hm6div, hm6mod⟩ := uuidVersionNibble (b6 &&& 15) hy6
  obtain ⟨hm8lt, hm8div, hm8mod⟩ := uuidVariantNibble (b8 &&& 63) hy8
  have hstep : generateIdFallback [b0, b1, b2, b3, b4, b5, b6, b7, b8, b9, b10, b11, b12, b13, b14, b15] =
      String.mk (formatUuidHex
        (([b0, b1, b2, b3, b4, b5, m6, b7, m8, b9, b10, b11, b12, b13, b14, b15].map byteToHexPadded).flatten)) := rfl
  rw [hstep]
  have hmap : ([b0, b1, b2, b3, b4, b5, m6, b7, m8, b9, b10, b11, b12, b13, b14, b15].map byteToHexPadded) =
      [byteToHexPadded b0, byteToHexPadded b1, byteToHexPadded b2,
       byteToHexPadded b3, byteToHexPadded b4, byteToHexPadded b5,
       byteToHexPadded m6, byteToHexPadded b7, byteToHexPadded m8,
       byteToHexPadded b9, byteToHexPadded b10, byteToHexPadded b11,
       byteToHexPadded b12, byteToHexPadded b13, byteToHexPadded b14,
       byteToHexPadded b15] := rfl
  rw [hmap, byteToHexPadded_eq h0, byteToHexPadded_eq h1, byteToHexPadded_eq h2, byteToHexPadded_eq h3, byteToHexPadded_eq h4, byteToHexPadded_eq h5, byteToHexPadded_eq hm6lt, byteToHexPadded_eq h7, byteToHexPadded_eq hm8lt, byteToHexPadded_eq h9, byteToHexPadded_eq h10, byteToHexPadded_eq h11, byteToHexPadded_eq h12, byteToHexPadded_eq h13, byteToHexPadded_eq h14, byteToHexPadded_eq h15]
  have hfmt : formatUuidHex
      (List.flatten
        [[hexDigitChar (b0 / 16), hexDigitChar (b0 % 16)],
         [hexDigitChar (b1 / 16), hexDigitChar (b1 % 16)],
         [hexDigitChar (b2 / 16), hexDigitChar (b2 % 16)],
         [hexDigitChar (b3 / 16), hexDigitChar (b3 % 16)],
         [hexDigitChar (b4 / 16), hexDigitChar (b4 % 16)],
         [hexDigitChar (b5 / 16), hexDigitChar (b5 % 16)],
         [hexDigitChar (m6 / 16), hexDigitChar (m6 % 16)],
         [hexDigitChar (b7 / 16), hexDigitChar (b7 % 16)],
         [hexDigitChar (m8 / 16), hexDigitChar (m8 % 16)],
         [hexDigitChar (b9 / 16), hexDigitChar (b9 % 16)],
         [hexDigitChar (b10 / 16), hexDigitChar (b10 % 16)],
         [hexDigitChar (b11 / 16), hexDigitChar (b11 % 16)],
         [hexDigitChar (b12 / 16), hexDigitChar (b12 % 16)],
         [hexDigitChar (b13 / 16), hexDigitChar (b13 % 16)],
         [hexDigitChar (b14 / 16), hexDigitChar (b14 % 16)],
         [hexDigitChar (b15 / 16), hexDigitChar (b15 % 16)]]) =
      [hexDigitChar (b0 / 16), hexDigitChar (b0 % 16), hexDigitChar (b1 / 16),
    hexDigitChar (b1 % 16), hexDigitChar (b2 / 16), hexDigitChar (b2 % 16),
    hexDigitChar (b3 / 16), hexDigitChar (b3 % 16), '-', hexDigitChar (b4 / 16),
    hexDigitChar (b4 % 16), hexDigitChar (b5 / 16), hexDigitChar (b5 % 16), '-',
    hexDigitChar (m6 / 16), hexDigitChar (m6 % 16), hexDigitChar (b7 / 16),
    hexDigitChar (b7 % 16), '-', hexDigitChar (m8 / 16), hexDigitChar (m8 % 16),
    hexDigitChar (b9 / 16), hexDigitChar (b9 % 16), '-', hexDigitChar (b10 / 16),
    hexDigitChar (b10 % 16), hexDigitChar (b11 / 16), hexDigitChar (b11 % 16),
    hexDigitChar (b12 / 16), hexDigitChar (b12 % 16), hexDigitChar (b13 / 16),
    hexDigitChar (b13 % 16), hexDigitChar (b14 / 16), hexDigitChar (b14 % 16),
    hexDigitChar (b15 / 16), hexDigitChar (b15 % 16)] := rfl
  rw [hfmt]
  have hd0 : isLowerHexDigit (hexDigitChar (b0 / 16)) = true := isLowerHexDigit_hexDigitChar (by omega)
  have hm0 : isLowerHexDigit (hexDigitChar (b0 % 16)) = true := isLowerHexDigit_hexDigitChar (by omega)
  have hd1 : isLowerHexDigit (hexDigitChar (b1 / 16)) = true := isLowerHexDigit_hexDigitChar (by omega)
  have hm1 : isLowerHexDigit (hexDigitChar (b1 % 16)) = true := isLowerHexDigit_hexDigitChar (by omega)
  have hd2 : isLowerHexDigit (hexDigitChar (b2 / 16)) = true := isLowerHexDigit_hexDigitChar (by omega)
  have hm2 : isLowerHexDigit (hexDigitChar (b2 % 16)) = true := isLowerHexDigit_hexDigitChar (by omega)
  have hd3 : isLowerHexDigit (hexDigitChar (b3 / 16)) = true := isLowerHexDigit_hexDigitChar (by omega)
  have hm3 : isLowerHexDigit (hexDigitChar (b3 % 16)) = true := isLowerHexDigit_hexDigitChar (by omega)
  have hd4 : isLowerHexDigit (hexDigitChar (b4 / 16)) = true := isLowerHexDigit_hexDigitChar (by omega)
  have hm4 : isLowerHexDigit (hexDigitChar (b4 % 16)) = true := isLowerHexDigit_hexDigitChar (by omega)
  have hd5 : isLowerHexDigit (hexDigitChar (b5 / 16)) = true := isLowerHexDigit_hexDigitChar (by omega)
  have hm5 : isLowerHexDigit (hexDigitChar (b5 % 16)) = true := isLowerHexDigit_hexDigitChar (by omega)
  have hd7 : isLowerHexDigit (hexDigitChar (b7 / 16)) = true := isLowerHexDigit_hexDigitChar (by omega)
  have hm7 : isLowerHexDigit (hexDigitChar (b7 % 16)) = true := isLowerHexDigit_hexDigitChar (by omega)
  have hd9 : isLowerHexDigit (hexDigitChar (b9 / 16)) = true := isLowerHexDigit_hexDigitChar (by omega)
  have hm9 : isLowerHexDigit (hexDigitChar (b9 % 16)) = true := isLowerHexDigit_hexDigitChar (by omega)
  have hd10 : isLowerHexDigit (hexDigitChar (b10 / 16)) = true := isLowerHexDigit_hexDigitChar (by omega)
  have hm10 : isLowerHexDigit (hexDigitChar (b10 % 16)) = true := isLowerHexDigit_hexDigitChar (by omega)
  have hd11 : isLowerHexDigit (hexDigitChar (b11 / 16)) = true := isLowerHexDigit_hexDigitChar (by omega)
  have hm11 : isLowerHexDigit (hexDigitChar (b11 % 16)) = true := isLowerHexDigit_hexDigitChar (by omega)
  have hd12 : isLowerHexDigit (hexDigitChar (b12 / 16)) = true := isLowerHexDigit_hexDigitChar (by omega)
  have hm12 : isLowerHexDigit (hexDigitChar (b12 % 16)) = true := isLowerHexDigit_hexDigitChar (by omega)
  have hd13 : isLowerHexDigit (hexDigitChar (b13 / 16)) = true := isLowerHexDigit_hexDigitChar (by omega)
  have hm13 : isLowerHexDigit (hexDigitChar (b13 % 16)) = true := isLowerHexDigit_hexDigitChar (by omega)
  have hd14 : isLowerHexDigit (hexDigitChar (b14 / 16)) = true := isLowerHexDigit_hexDigitChar (by omega)
  have hm14 : isLowerHexDigit (hexDigitChar (b14 % 16)) = true := isLowerHexDigit_hexDigitChar (by omega)
  have hd15 : isLowerHexDigit (hexDigitChar (b15 / 16)) = true := isLowerHexDigit_hexDigitChar (by omega)
  have hm15 : isLowerHexDigit (hexDigitChar (b15 % 16)) = true := isLowerHexDigit_hexDigitChar (by omega)
  have hd6 : hexDigitChar (m6 / 16) = '4' := by rw [hm6div]; rfl
  have hm6h : isLowerHexDigit (hexDigitChar (m6 % 16)) = true :=
    isLowerHexDigit_hexDigitChar hm6mod
  have hm8h : isLowerHexDigit (hexDigitChar (m8 % 16)) = true :=
    isLowerHexDigit_hexDigitChar hm8mod
  rw [hd6]
  clear hstep hmap hfmt
  rcases hm8div with hv | hv | hv | hv <;> rw [hv] <;>
    simp only [isValidUuidV4, isValidUuidV4Chars, List.all_cons, List.all_nil,
      Bool.and_eq_true, Bool.or_eq_true, decide_eq_true_eq] <;>
    simp [hd0, hm0, hd1, hm1, hd2, hm2, hd3, hm3, hd4, hm4,
      hd5, hm5, hm6h, hd7, hm7, hm8h, hd9, hm9, hd10, hm10, hd11, hm11,
      hd12, hm12, hd13, hm13, hd14, hm14, hd15, hm15] <;> decide
  
/-- Claim C10: every string returned by generateId is a well-formed UUID v4
(36 characters in the hyphenated 8-4-4-4-12 lowercase-hex layout, version
nibble 4, variant nibble one of 8, 9, a, b) on both the crypto.randomUUID
path and the getRandomValues fallback path, for any 16 random bytes. -/
theorem claim_C10_generateId_uuid_shape (hasNative : Bool) (bytes : List Nat)
    (hlen : bytes.length = 16) (hb : ∀ b ∈ bytes, b < 256) :
    isValidUuidV4 (generateId hasNative bytes) = true := by
  cases hasNative <;>
    simpa [generateId, cryptoRandomUUID] using generateIdFallback_valid bytes hlen hb

/-- Witness for claim C10 at the concrete all-zero byte input. -/
theorem claim_C10_witness :
    (List.replicate 16 0).length = 16 ∧
    isValidUuidV4 (generateId false (List.replicate 16 0)) = true :=
  ⟨by decide,
   claim_C10_generateId_uuid_shape false (List.replicate 16 0) (by decide) (by decide)⟩

/-!
Embedding of the port layout packer `calculatePortLayout` from the
research document's recommended algorithm (the only source of the
function in the repository).  Constants: default port radius 3, minimum
radius 2, minimum spacing 2, vertical offset 8, row gap 2.
-/

/-- A device interface (port) template: name, physical type tag, and the
management-only flag. -/
structure InterfaceTemplate where
  name : String
  itype : String
  mgmtOnly : Bool
  deriving DecidableEq, Repr

/-- One laid-out port: the interface, its center coordinates and radius. -/
structure PortPosition where
  iface : InterfaceTemplate
  px : JSNum
  py : JSNum
  pradius : JSNum
  deriving DecidableEq, Repr

/-- The three-variant layout decision returned by the packer. -/
inductive PortLayoutResult where
  | hidden
  | grouped (groups : List (String × Nat))
  | individual (rows portsPerRow portRadius spacing : JSNum)
      (positions : List PortPosition)
  deriving DecidableEq, Repr

/-- Modelled from the spec: `groupInterfacesByType` is called but not
defined in the repository; the spec describes one badge per distinct
interface type (count per type), ordered by first occurrence. -/
def groupInterfacesByType (ifaces : List InterfaceTemplate) : List (String × Nat) :=
  ifaces.foldl
    (fun acc i =>
      if acc.any (fun p => p.1 == i.itype) then
        acc.map (fun p => if p.1 == i.itype then (p.1, p.2 + 1) else p)
      else acc ++ [(i.itype, 1)])
    []

/-- Row-major port position assignment:
row = floor(index / portsPerRow), col = index mod portsPerRow,
x = spacing + col*(radius*2 + spacing) + radius, y = row*(radius*2 + 2) + radius. -/
def calculatePositions (ifaces : List InterfaceTemplate)
    (portsPerRow spacing radius : JSNum) : List PortPosition :=
  ifaces.enum.map (fun p =>
    let idx := JSNum.ofNat p.1
    let row := (idx.div portsPerRow).floor
    let col := idx.fmod portsPerRow
    { iface := p.2
      px := (spacing.add (col.mul ((radius.mul (JSNum.ofNat 2)).add spacing))).add radius
      py := (row.mul ((radius.mul (JSNum.ofNat 2)).add (JSNum.ofNat 2))).add radius
      pradius := radius })

/-- Embedding of `calculatePortLayout(deviceWidth, deviceHeight,
interfaces, zoom, rackWidth)`.  Hidden below zoom 0.5; grouped when the
minimum-spacing width requirement is not met below zoom 1.5; otherwise a
multi-row individual layout, retried once with the reduced radius when
spacing falls below the minimum. -/
def calculatePortLayout (deviceWidth deviceHeight : JSNum)
    (interfaces : List InterfaceTemplate) (zoom : JSNum)
    (rackWidth : Nat) : PortLayoutResult :=
  let portCount := JSNum.ofNat interfaces.length
  if JSNum.lt zoom (.fin ⟨1, 2⟩) then .hidden
  else
    let availableHeight := deviceHeight.sub (JSNum.ofNat 8)
    let maxRows := (availableHeight.div (JSNum.ofNat 8)).floor
    let portsPerRow := (portCount.div maxRows).ceil
    let requiredWidth := portsPerRow.mul (JSNum.ofNat 8)
    if JSNum.lt deviceWidth requiredWidth && JSNum.lt zoom (.fin ⟨3, 2⟩) then
      .grouped (groupInterfacesByType interfaces)
    else
      let optimalRows := JSNum.min2 maxRows
        ((portCount.div ((deviceWidth.div (JSNum.ofNat 8)).floor)).ceil)
      let portsPerRowFinal := (portCount.div optimalRows).ceil
      let spacing :=
        (deviceWidth.sub ((portsPerRowFinal.mul (JSNum.ofNat 3)).mul (JSNum.ofNat 2))).div
          (portsPerRowFinal.add (JSNum.ofNat 1))
      if JSNum.lt spacing (JSNum.ofNat 2) then
        let spacing2 :=
          (deviceWidth.sub ((portsPerRowFinal.mul (JSNum.ofNat 2)).mul (JSNum.ofNat 2))).div
            (portsPerRowFinal.add (JSNum.ofNat 1))
        .individual optimalRows portsPerRowFinal (JSNum.ofNat 2) spacing2
          (calculatePositions interfaces portsPerRowFinal spacing2 (JSNum.ofNat 2))
      else
        .individual optimalRows portsPerRowFinal (JSNum.ofNat 3) spacing
          (calculatePositions interfaces portsPerRowFinal spacing (JSNum.ofNat 3))

/-- True when the decision is the Individual variant. -/
def PortLayoutResult.isIndividual : PortLayoutResult → Bool
  | .individual _ _ _ _ _ => true
  | _ => false

/-- Semantic test that an Individual decision has the given row count. -/
def PortLayoutResult.rowsIs (res : PortLayoutResult) (n : Nat) : Bool :=
  match res with
  | .individual r _ _ _ _ => JSNum.seq r (JSNum.ofNat n)
  | _ => false

/-- Semantic test that an Individual decision has the given ports-per-row. -/
def PortLayoutResult.portsPerRowIs (res : PortLayoutResult) (n : Nat) : Bool :=
  match res with
  | .individual _ p _ _ _ => JSNum.seq p (JSNum.ofNat n)
  | _ => false

/-- Semantic test that an Individual decision has exactly the given spacing. -/
def PortLayoutResult.spacingIs (res : PortLayoutResult) (q : JQ) : Bool :=
  match res with
  | .individual _ _ _ s _ => JSNum.seq s (.fin q)
  | _ => false

/-- Semantic test that an Individual decision has spacing at least `q`. -/
def PortLayoutResult.spacingGe (res : PortLayoutResult) (q : JQ) : Bool :=
  match res with
  | .individual _ _ _ s _ => JSNum.le (.fin q) s
  | _ => false

/-- Positions-length condition: in the Individual variant the packer emits
exactly one position per interface. -/
def posLenOk (res : PortLayoutResult) (n : Nat) : Prop :=
  match res with
  | .individual _ _ _ _ pos => pos.length = n
  | _ => True

/-- The 48-port interface list used for concrete packer scenarios. -/
def ifaces48 : List InterfaceTemplate :=
  List.replicate 48 ⟨"eth", "1000base-t", false⟩

theorem calculatePositions_length (ifaces : List InterfaceTemplate)
    (p s r : JSNum) :
    (calculatePositions ifaces p s r).length = ifaces.length := by
  simp [calculatePositions]

/-- Claim C6: for every input, calculatePortLayout terminates and returns
exactly one of the three LayoutDecision variants (Hidden, Grouped, or
Individual) with one emitted position per interface in the Individual
case; no input reaches an error or exception branch (the embedding is a
total function with no error value in its codomain). -/
theorem claim_C6_calculatePortLayout_total (w h : JSNum)
    (ifaces : List InterfaceTemplate) (zoom : JSNum) (rackWidthClass : Nat) :
    (calculatePortLayout w h ifaces zoom rackWidthClass = .hidden ∨
     (∃ gs, calculatePortLayout w h ifaces zoom rackWidthClass = .grouped gs) ∨
     (∃ r p rad s pos,
        calculatePortLayout w h ifaces zoom rackWidthClass =
          .individual r p rad s pos)) ∧
    posLenOk (calculatePortLayout w h ifaces zoom rackWidthClass) ifaces.length := by
  simp only [calculatePortLayout]
  split
  · exact ⟨Or.inl rfl, trivial⟩
  · split
    · exact ⟨Or.inr (Or.inl ⟨_, rfl⟩), trivial⟩
    · split
      · exact ⟨Or.inr (Or.inr ⟨_, _, _, _, _, rfl⟩),
          by simp [posLenOk, calculatePositions_length]⟩
      · exact ⟨Or.inr (Or.inr ⟨_, _, _, _, _, rfl⟩),
          by simp [posLenOk, calculatePositions_length]⟩

/-- Counterexample to claim C3: at deviceWidthPx = 186, portCount = 48,
zoom = 1.2 the packer does not return the claimed Individual layout with
2 rows of 24.  With the repository's 1U device height (22 px) the result
is not Individual at all, and with a 2U height (44 px) the Individual
result does not have 2 rows. -/
theorem claim_C3_counterexample :
    ((calculatePortLayout (JSNum.ofNat 186) (JSNum.ofNat 22) ifaces48
      (.fin ⟨6, 5⟩) 19).isIndividual = false) ∧
    ((calculatePortLayout (JSNum.ofNat 186) (JSNum.ofNat 44) ifaces48
      (.fin ⟨6, 5⟩) 19).rowsIs 2 = false) := by decide

/-- Claim C3 (amended): for deviceWidthPx = 186, portCount = 48,
zoom = 1.2, the packer returns Grouped at the repository's 1U device
height (22 px), because 24 ports per row would require 192 px at the
2 px minimum spacing; at device heights allowing three or more rows
(2U, 44 px) it returns Individual with 3 rows of 16 ports and spacing
90/17, which is at least 2 px.  It never returns 2 rows of 24 at this
width. -/
theorem claim_C3_amended :
    (calculatePortLayout (JSNum.ofNat 186) (JSNum.ofNat 22) ifaces48
      (.fin ⟨6, 5⟩) 19 = .grouped [("1000base-t", 48)]) ∧
    ((calculatePortLayout (JSNum.ofNat 186) (JSNum.ofNat 44) ifaces48
      (.fin ⟨6, 5⟩) 19).rowsIs 3 = true) ∧
    ((calculatePortLayout (JSNum.ofNat 186) (JSNum.ofNat 44) ifaces48
      (.fin ⟨6, 5⟩) 19).portsPerRowIs 16 = true) ∧
    ((calculatePortLayout (JSNum.ofNat 186) (JSNum.ofNat 44) ifaces48
      (.fin ⟨6, 5⟩) 19).spacingIs ⟨90, 17⟩ = true) ∧
    ((calculatePortLayout (JSNum.ofNat 186) (JSNum.ofNat 44) ifaces48
      (.fin ⟨6, 5⟩) 19).spacingGe ⟨2, 1⟩ = true) := by decide

/-!
Adaptive text fitter.  The implementation module
(`src/lib/utils/text-sizing.ts`) is not part of the provided sources;
only its test suite is.  The functions below are modelled from the spec
(estimated width = length x fontSize x 0.58, downward search from the
maximum font size, prefix truncation with an appended ellipsis, bare
ellipsis for non-positive widths, empty text at the maximum size) and
are consistent with the test suite's expectations.
-/

/-- Modelled from the spec: estimated rendered width of `len` characters
at `fontSize`, using the fixed empirical character-width constant 0.58
(no real glyph metrics). -/
def estimateTextWidth (len fontSize : Nat) : JQ := ⟨(len * fontSize * 29 : Nat), 50⟩

/-- Downward linear search: try `fs`, decrementing at most `steps` times,
returning the first size whose estimated width fits. -/
def calcFontSizeAux (len : Nat) (w : JQ) : Nat → Nat → Nat
  | 0, fs => fs
  | steps + 1, fs =>
      if (estimateTextWidth len fs).ble w then fs
      else calcFontSizeAux len w steps (fs - 1)

/-- Modelled from the spec: `calculateFontSize` searches the font size
downward from `maxFS` to `minFS` until the estimated width fits. -/
def calculateFontSize (text : String) (maxFS minFS : Nat) (w : JQ) : Nat :=
  calcFontSizeAux text.length w (maxFS - minFS) maxFS

/-- Largest prefix length `j ≤ k` such that `j` characters plus the
ellipsis fit at the given size; 0 when nothing fits. -/
def truncPrefixLen (w : JQ) (fontSize : Nat) : Nat → Nat
  | 0 => 0
  | k + 1 =>
      if (estimateTextWidth (k + 2) fontSize).ble w then k + 1
      else truncPrefixLen w fontSize k

/-- Modelled from the spec: `truncateWithEllipsis` returns the text when
it fits, otherwise the longest prefix that fits together with an
appended ellipsis character (possibly the bare ellipsis). -/
def truncateWithEllipsis (text : String) (w : JQ) (fontSize : Nat) : String :=
  if (estimateTextWidth text.length fontSize).ble w then text
  else String.mk ((text.data.take (truncPrefixLen w fontSize text.data.length)) ++ ['…'])

/-- Modelled from the spec: `fitTextToWidth` returns a bare ellipsis at
the minimum size for non-positive widths; otherwise the searched font
size, truncating at the minimum size when even that overflows. -/
def fitTextToWidth (text : String) (maxFS minFS : Nat) (w : JQ) : String × Nat :=
  if w.ble ⟨0, 1⟩ then ("…", minFS)
  else
    let fs := calculateFontSize text maxFS minFS w
    if (estimateTextWidth text.length fs).ble w then (text, fs)
    else (truncateWithEllipsis text w minFS, minFS)

theorem calcFontSizeAux_le (len : Nat) (w : JQ) (steps fs : Nat) :
    calcFontSizeAux len w steps fs ≤ fs := by
  induction steps generalizing fs with
  | zero => simp [calcFontSizeAux]
  | succ k ih =>
      simp only [calcFontSizeAux]
      split
      · exact Nat.le_refl _
      · exact Nat.le_trans (ih (fs - 1)) (Nat.sub_le _ _)

theorem calcFontSizeAux_ge (len : Nat) (w : JQ) (steps fs : Nat) :
    fs - steps ≤ calcFontSizeAux len w steps fs := by
  induction steps generalizing fs with
  | zero => simp [calcFontSizeAux]
  | succ k ih =>
      simp only [calcFontSizeAux]
      split
      · exact Nat.sub_le _ _
      · exact Nat.le_trans (by omega) (ih (fs - 1))

/-- Claim C4: for every input with minFontSize ≤ maxFontSize,
fitTextToWidth returns a fontSize within [minFontSize, maxFontSize], and
whenever availableWidth ≤ 0 it returns the bare ellipsis string at
minFontSize. -/
theorem claim_C4_fitTextToWidth_bounds (text : String) (maxFS minFS : Nat)
    (w : JQ) (hle : minFS ≤ maxFS) (hw : w.WF) :
    (minFS ≤ (fitTextToWidth text maxFS minFS w).2 ∧
     (fitTextToWidth text maxFS minFS w).2 ≤ maxFS) ∧
    (w.val ≤ 0 → fitTextToWidth text maxFS minFS w = ("…", minFS)) := by
  constructor
  · unfold fitTextToWidth
    split
    · exact ⟨Nat.le_refl _, hle⟩
    · have h1 := calcFontSizeAux_le text.length w (maxFS - minFS) maxFS
      have h2 := calcFontSizeAux_ge text.length w (maxFS - minFS) maxFS
      simp only [calculateFontSize]
      split
      · constructor <;> omega
      · exact ⟨Nat.le_refl _, hle⟩
  · intro h0
    have hz : (JQ.mk 0 1).WF := by decide
    have hble : w.ble ⟨0, 1⟩ = true := by
      rw [JQ.ble_iff hw hz]
      simpa [JQ.val] using h0
    unfold fitTextToWidth
    rw [if_pos hble]

/-- Witness for claim C4 at a concrete zero-width input. -/
theorem claim_C4_witness :
    9 ≤ 13 ∧ (JQ.mk 0 1).WF ∧
    fitTextToWidth "Server" 13 9 ⟨0, 1⟩ = ("…", 9) :=
  ⟨by decide, by decide,
   (claim_C4_fitTextToWidth_bounds "Server" 13 9 ⟨0, 1⟩ (by decide) (by decide)).2
     (by simp [JQ.val])⟩

theorem fitTextToWidth_short_text_anchor :
    fitTextToWidth "Server" 13 9 ⟨150, 1⟩ = ("Server", 13) := by decide

theorem fitTextToWidth_empty_anchor :
    fitTextToWidth "" 13 9 ⟨150, 1⟩ = ("", 13) := by decide

theorem truncateWithEllipsis_narrow_anchor :
    truncateWithEllipsis "Server" ⟨10, 1⟩ 13 = "…" := by decide

/-!
Device placement validator.  `validatePlacement` has no implementation in
the provided sources (only the data-type declarations and research notes
mention the face-blocking rule), so it is modelled from the spec:
occupied range [position, position + height - 1]; effective
face-occupancy set: both faces for a full-depth device, only its own
face otherwise; a conflict with an existing placement exactly when the
unit ranges intersect and the face sets intersect; the result is Ok or
Conflict carrying the colliding placement ids.
-/

/-- Mounting face of a placement. -/
inductive Face where
  | front
  | rear
  | both
  deriving DecidableEq, Repr

/-- Catalog entry fields used by the validator. -/
structure DeviceType where
  slug : String
  u_height : JQ
  is_full_depth : Bool
  deriving DecidableEq, Repr

/-- A placed device instance. -/
structure PlacedDevice where
  id : String
  device_type : String
  position : JQ
  face : Face
  deriving DecidableEq, Repr

/-- A rack (spec data model): declared height and its placements.  Named
`RackSpec` because Mathlib already declares `Rack`. -/
structure RackSpec where
  name : String
  height : JQ
  devices : List PlacedDevice
  deriving DecidableEq, Repr

/-- Result of validating a candidate placement. -/
inductive ValidationResult where
  | ok
  | conflict (ids : List String)
  deriving DecidableEq, Repr

/-- Look up a device type by slug. -/
def lookupType (types : List DeviceType) (slug : String) : Option DeviceType :=
  types.find? (fun t => t.slug == slug)

/-- Top of the occupied range: position + height - 1. -/
def occupiedEnd (pos h : JQ) : JQ := (pos.add h).sub ⟨1, 1⟩

/-- Modelled from the spec: closed unit ranges intersect. -/
def rangesIntersect (p1 h1 p2 h2 : JQ) : Bool :=
  p1.ble (occupiedEnd p2 h2) && p2.ble (occupiedEnd p1 h1)

/-- Modelled from the spec: effective face occupancy as a
(front, rear) pair; a full-depth device occupies both faces. -/
def faceSet (f : Face) (fullDepth : Bool) : Bool × Bool :=
  if fullDepth then (true, true)
  else
    match f with
    | .front => (true, false)
    | .rear => (false, true)
    | .both => (true, true)

/-- Face-occupancy sets intersect. -/
def facesIntersect (a b : Bool × Bool) : Bool := (a.1 && b.1) || (a.2 && b.2)

/-- Modelled from the spec: a candidate collides with an existing
placement when both ranges and face sets intersect (placements whose
slug does not resolve contribute no conflict). -/
def conflictsWith (types : List DeviceType) (cand other : PlacedDevice) : Bool :=
  match lookupType types cand.device_type, lookupType types other.device_type with
  | some tc, some tod =>
      rangesIntersect cand.position tc.u_height other.position tod.u_height &&
      facesIntersect (faceSet cand.face tc.is_full_depth)
        (faceSet other.face tod.is_full_depth)
  | _, _ => false

/-- Modelled from the spec: `validatePlacement(rack, candidate)` returns
Ok, or Conflict with the ids of all colliding placements. -/
def validatePlacement (types : List DeviceType) (rack : RackSpec)
    (cand : PlacedDevice) : ValidationResult :=
  let colliding := rack.devices.filter (fun d => conflictsWith types cand d)
  if colliding.isEmpty then .ok else .conflict (colliding.map (fun d => d.id))

/-- Semantic (rational-valued) closed-interval intersection. -/
def rangesOverlapQ (p1 h1 p2 h2 : ℚ) : Prop :=
  p1 ≤ p2 + h2 - 1 ∧ p2 ≤ p1 + h1 - 1

/-- A placement occupies the front face. -/
def occupiesFront (f : Face) (fullDepth : Bool) : Prop :=
  fullDepth = true ∨ f = .front ∨ f = .both

/-- A placement occupies the rear face. -/
def occupiesRear (f : Face) (fullDepth : Bool) : Prop :=
  fullDepth = true ∨ f = .rear ∨ f = .both

/-- Semantic face-set intersection. -/
def facesOverlapP (f1 : Face) (d1 : Bool) (f2 : Face) (d2 : Bool) : Prop :=
  (occupiesFront f1 d1 ∧ occupiesFront f2 d2) ∨
  (occupiesRear f1 d1 ∧ occupiesRear f2 d2)

theorem facesIntersect_iff (f1 : Face) (d1 : Bool) (f2 : Face) (d2 : Bool) :
    (facesIntersect (faceSet f1 d1) (faceSet f2 d2) = true) ↔
      facesOverlapP f1 d1 f2 d2 := by
  cases f1 <;> cases f2 <;> cases d1 <;> cases d2 <;>
    simp [facesIntersect, faceSet, facesOverlapP, occupiesFront, occupiesRear]

theorem occupiedEnd_val {p h : JQ} (hp : p.WF) (hh : h.WF) :
    (occupiedEnd p h).val = p.val + h.val - 1 := by
  unfold occupiedEnd
  rw [JQ.val_sub (hp.add hh) (by decide), JQ.val_add hp hh]
  norm_num [JQ.val]

theorem JQ.WF.occEnd {p h : JQ} (hp : p.WF) (hh : h.WF) : (occupiedEnd p h).WF :=
  (hp.add hh).sub (by decide)

theorem rangesIntersect_iff {p1 h1 p2 h2 : JQ}
    (hp1 : p1.WF) (hh1 : h1.WF) (hp2 : p2.WF) (hh2 : h2.WF) :
    (rangesIntersect p1 h1 p2 h2 = true) ↔
      rangesOverlapQ p1.val h1.val p2.val h2.val := by
  unfold rangesIntersect rangesOverlapQ
  rw [Bool.and_eq_true, JQ.ble_iff hp1 (hp2.occEnd hh2), JQ.ble_iff hp2 (hp1.occEnd hh1),
    occupiedEnd_val hp2 hh2, occupiedEnd_val hp1 hh1]

theorem conflictsWith_iff (types : List DeviceType) (cand other : PlacedDevice)
    (htypes : ∀ t ∈ types, t.u_height.WF)
    (hcand : cand.position.WF) (hother : other.position.WF) :
    (conflictsWith types cand other = true) ↔
      ∃ tc tod, lookupType types cand.device_type = some tc ∧
        lookupType types other.device_type = some tod ∧
        rangesOverlapQ cand.position.val tc.u_height.val
          other.position.val tod.u_height.val ∧
        facesOverlapP cand.face tc.is_full_depth other.face tod.is_full_depth := by
  cases hc : lookupType types cand.device_type with
  | none => simp [conflictsWith, hc]
  | some tc =>
      cases ho : lookupType types other.device_type with
      | none => simp [conflictsWith, hc, ho]
      | some tod =>
          have htc : tc.u_height.WF :=
            htypes tc (List.mem_of_find?_eq_some hc)
          have htod : tod.u_height.WF :=
            htypes tod (List.mem_of_find?_eq_some ho)
          simp only [conflictsWith, hc, ho, Bool.and_eq_true,
            rangesIntersect_iff hcand htc hother htod, facesIntersect_iff,
            Option.some.injEq]
          constructor
          · rintro ⟨hr, hf⟩
            exact ⟨tc, tod, rfl, rfl, hr, hf⟩
          · rintro ⟨tc2, tod2, h1, h2, hr, hf⟩
            subst h1
            subst h2
            exact ⟨hr, hf⟩

/-- Demo catalog for the placement scenarios: a half-depth 1U type and a
full-depth 1U type. -/
def demoTypes : List DeviceType :=
  [⟨"half-1u", ⟨1, 1⟩, false⟩, ⟨"full-1u", ⟨1, 1⟩, true⟩]

/-- Rack holding one half-depth device at position 1 on the front face. -/
def demoRack1 : RackSpec :=
  ⟨"r1", ⟨42, 1⟩, [⟨"existing-half-front", "half-1u", ⟨1, 1⟩, .front⟩]⟩

/-- Candidate: half-depth at position 1 on the rear face. -/
def demoCand1 : PlacedDevice := ⟨"cand-half-rear", "half-1u", ⟨1, 1⟩, .rear⟩

/-- Rack holding one half-depth device at position 1 on the rear face. -/
def demoRack2 : RackSpec :=
  ⟨"r2", ⟨42, 1⟩, [⟨"existing-half-rear", "half-1u", ⟨1, 1⟩, .rear⟩]⟩

/-- Candidate: full-depth at position 1 on the front face. -/
def demoCand2 : PlacedDevice := ⟨"cand-full-front", "full-1u", ⟨1, 1⟩, .front⟩

/-- Claim C1: validatePlacement returns Conflict exactly when some
existing placement's occupied unit range intersects the candidate's and
their effective face-occupancy sets intersect (full-depth occupies both
faces, half-depth only its own face); in particular two half-depth
devices at the same position on opposite faces are accepted, while a
full-depth device overlapping a half-depth device on the opposite face
is rejected. -/
theorem claim_C1_validatePlacement_conflict_iff :
    (∀ (types : List DeviceType) (rack : RackSpec) (cand : PlacedDevice),
       (∀ t ∈ types, t.u_height.WF) → cand.position.WF →
       (∀ d ∈ rack.devices, d.position.WF) →
       ((∃ ids, validatePlacement types rack cand = .conflict ids) ↔
        ∃ d ∈ rack.devices, ∃ tc tod,
          lookupType types cand.device_type = some tc ∧
          lookupType types d.device_type = some tod ∧
          rangesOverlapQ cand.position.val tc.u_height.val
            d.position.val tod.u_height.val ∧
          facesOverlapP cand.face tc.is_full_depth d.face tod.is_full_depth)) ∧
    validatePlacement demoTypes demoRack1 demoCand1 = .ok ∧
    validatePlacement demoTypes demoRack2 demoCand2 =
      .conflict ["existing-half-rear"] := by
  refine ⟨?_, by decide, by decide⟩
  intro types rack cand htypes hcand hdevs
  have key : ∀ d ∈ rack.devices, (conflictsWith types cand d = true ↔
      ∃ tc tod, lookupType types cand.device_type = some tc ∧
        lookupType types d.device_type = some tod ∧
        rangesOverlapQ cand.position.val tc.u_height.val
          d.position.val tod.u_height.val ∧
        facesOverlapP cand.face tc.is_full_depth d.face tod.is_full_depth) :=
    fun d hd => conflictsWith_iff types cand d htypes hcand (hdevs d hd)
  constructor
  · rintro ⟨ids, hids⟩
    by_cases hE : (rack.devices.filter (fun d => conflictsWith types cand d)).isEmpty
    · simp [validatePlacement, hE] at hids
    · obtain ⟨d, hdmem⟩ :=
        List.exists_mem_of_ne_nil
          (rack.devices.filter (fun d => conflictsWith types cand d))
          (fun h0 => hE (by rw [h0]; rfl))
      have hdm := List.mem_filter.mp hdmem
      exact ⟨d, hdm.1, (key d hdm.1).mp hdm.2⟩
  · rintro ⟨d, hd, hrest⟩
    have hc : conflictsWith types cand d = true := (key d hd).mpr hrest
    have hmem : d ∈ rack.devices.filter (fun d => conflictsWith types cand d) :=
      List.mem_filter.mpr ⟨hd, hc⟩
    have hne : ¬ (rack.devices.filter (fun d => conflictsWith types cand d)).isEmpty = true := by
      intro hE
      rw [List.isEmpty_iff] at hE
      rw [hE] at hmem
      simp at hmem
    exact ⟨(rack.devices.filter (fun d => conflictsWith types cand d)).map
        (fun d => d.id),
      by simp only [validatePlacement, if_neg hne]⟩

/-- Witness for claim C1: the full-depth-versus-half-depth scenario
satisfies the hypotheses and yields the semantic overlap. -/
theorem claim_C1_witness :
    (∀ t ∈ demoTypes, t.u_height.WF) ∧ demoCand2.position.WF ∧
    (∀ d ∈ demoRack2.devices, d.position.WF) ∧
    (∃ d ∈ demoRack2.devices, ∃ tc tod,
      lookupType demoTypes demoCand2.device_type = some tc ∧
      lookupType demoTypes d.device_type = some tod ∧
      rangesOverlapQ demoCand2.position.val tc.u_height.val
        d.position.val tod.u_height.val ∧
      facesOverlapP demoCand2.face tc.is_full_depth d.face tod.is_full_depth) :=
  ⟨by decide, by decide, by decide,
   ((claim_C1_validatePlacement_conflict_iff.1 demoTypes demoRack2 demoCand2
      (by decide) (by decide) (by decide)).mp
     ⟨["existing-half-rear"], claim_C1_validatePlacement_conflict_iff.2.2⟩)⟩

/-!
Color utilities.  The isometric POC file contains two scripts, each with
its own `darkenColor`/`lightenColor`.  The first script's pair converts
hex to HSL, scales the lightness (clamped), and converts back; the
second script's pair scales the RGB channels directly by a percentage.
JavaScript `parseInt(s, 16)` is modelled faithfully including its NaN
result on inputs without a leading hex digit, its longest-prefix
parsing, and its optional sign and 0x-prefix handling.
-/

/-- Numeric value of one hexadecimal digit, case-insensitive (by code
point: 0-9, a-f, or A-F). -/
def hexDigitVal? (c : Char) : Option Nat :=
  if 48 ≤ c.toNat ∧ c.toNat ≤ 57 then some (c.toNat - 48)
  else if 97 ≤ c.toNat ∧ c.toNat ≤ 102 then some (c.toNat - 87)
  else if 65 ≤ c.toNat ∧ c.toNat ≤ 70 then some (c.toNat - 55)
  else none

/-- Strip a leading 0x or 0X prefix. -/
def strip0x (s : List Char) : List Char :=
  match s with
  | a :: b :: r => if a = '0' ∧ (b = 'x' ∨ b = 'X') then r else a :: b :: r
  | r => r

/-- Longest-prefix hex digit parse; NaN when no digit is present. -/
def parseIntHexCore (s : List Char) (negSign : Bool) : JSNum :=
  let s2 := strip0x s
  let digits := s2.takeWhile (fun c => (hexDigitVal? c).isSome)
  if digits.isEmpty then .nan
  else
    let v := digits.foldl (fun acc c => acc * 16 + ((hexDigitVal? c).getD 0)) 0
    .fin ⟨if negSign then -(v : Int) else (v : Int), 1⟩

/-- JavaScript `parseInt(s, 16)`: skip whitespace, optional sign,
optional 0x prefix, then the longest hex-digit prefix. -/
def parseIntHex (s : List Char) : JSNum :=
  let s1 := s.dropWhile (fun c => c = ' ' ∨ c = '\t' ∨ c = '\n' ∨ c = '\r')
  match s1 with
  | a :: rest =>
      if a = '-' then parseIntHexCore rest true
      else if a = '+' then parseIntHexCore rest false
      else parseIntHexCore (a :: rest) false
  | [] => parseIntHexCore [] false

/-- JavaScript Math.abs. -/
def JSNum.abs : JSNum → JSNum
  | .fin x => .fin ⟨Int.natAbs x.num, x.den⟩
  | .inf _ => .inf true
  | .nan => .nan

/-- Channel parsing stage of `hexToHsl`: the three 2-digit slices parsed
and divided by 255. -/
def hslChannels (hex : String) : JSNum × JSNum × JSNum :=
  let cs := hex.data
  ((parseIntHex (listSlice cs 1 3)).div (JSNum.ofNat 255),
   (parseIntHex (listSlice cs 3 5)).div (JSNum.ofNat 255),
   (parseIntHex (listSlice cs 5 7)).div (JSNum.ofNat 255))

/-- Saturation branch of `hexToHsl`:
`s = l > 0.5 ? d / (2 - max - min) : d / (max + min)`. -/
def hslSat (mx mn d l : JSNum) : JSNum :=
  if JSNum.lt (.fin ⟨1, 2⟩) l then d.div ((JSNum.ofNat 2).sub (mx.add mn))
  else d.div (mx.add mn)

/-- Hue switch of `hexToHsl`; hue stays 0 when no case matches. -/
def hslHue (r g b mx d : JSNum) : JSNum :=
  if JSNum.seq mx r then
    (((g.sub b).div d).add
      (if JSNum.lt g b then JSNum.ofNat 6 else JSNum.ofNat 0)).div (JSNum.ofNat 6)
  else if JSNum.seq mx g then
    (((b.sub r).div d).add (JSNum.ofNat 2)).div (JSNum.ofNat 6)
  else if JSNum.seq mx b then
    (((r.sub g).div d).add (JSNum.ofNat 4)).div (JSNum.ofNat 6)
  else JSNum.ofNat 0

/-- HSL computation stage of `hexToHsl`: lightness from max and min,
saturation and hue from the branchy HSL formulas.  Returns
(h x 360, s x 100, l x 100). -/
def hslFromChannels (r g b : JSNum) : JSNum × JSNum × JSNum :=
  let mx := JSNum.max2 (JSNum.max2 r g) b
  let mn := JSNum.min2 (JSNum.min2 r g) b
  let l := (mx.add mn).div (JSNum.ofNat 2)
  let hs :=
    if JSNum.seq mx mn then ((JSNum.ofNat 0), (JSNum.ofNat 0))
    else (hslHue r g b mx (mx.sub mn), hslSat mx mn (mx.sub mn) l)
  (hs.1.mul (JSNum.ofNat 360), hs.2.mul (JSNum.ofNat 100), l.mul (JSNum.ofNat 100))

/-- Embedding of `hexToHsl` (first script). -/
def hexToHsl (hex : String) : JSNum × JSNum × JSNum :=
  let ch := hslChannels hex
  hslFromChannels ch.1 ch.2.1 ch.2.2

/-- Hexadecimal rendering of an integer, as `toString(16)` yields. -/
def intToStr16 (i : Int) : List Char :=
  if i < 0 then '-' :: natToHexStr i.natAbs else natToHexStr i.natAbs

/-- Render a channel value: `Math.round(n).toString(16).padStart(2, "0")`. -/
def roundedHexChannel (n : JSNum) : List Char :=
  match n.round with
  | .fin x => padStart2 (intToStr16 x.num)
  | .inf p => if p then "Infinity".data else padStart2 "-Infinity".data
  | .nan => padStart2 "NaN".data

/-- Embedding of `hslToHex` (first script): chroma, intermediate and
match components, six hue branches, then rounded two-digit channels. -/
def hslToHex (h s l : JSNum) : String :=
  let s1 := s.div (JSNum.ofNat 100)
  let l1 := l.div (JSNum.ofNat 100)
  let c := ((JSNum.ofNat 1).sub (((JSNum.ofNat 2).mul l1).sub (JSNum.ofNat 1)).abs).mul s1
  let x := c.mul
    ((JSNum.ofNat 1).sub (((h.div (JSNum.ofNat 60)).fmod (JSNum.ofNat 2)).sub (JSNum.ofNat 1)).abs)
  let m := l1.sub (c.div (JSNum.ofNat 2))
  let rgb :=
    if JSNum.lt h (JSNum.ofNat 60) then (c, x, JSNum.ofNat 0)
    else if JSNum.lt h (JSNum.ofNat 120) then (x, c, JSNum.ofNat 0)
    else if JSNum.lt h (JSNum.ofNat 180) then (JSNum.ofNat 0, c, x)
    else if JSNum.lt h (JSNum.ofNat 240) then (JSNum.ofNat 0, x, c)
    else if JSNum.lt h (JSNum.ofNat 300) then (x, JSNum.ofNat 0, c)
    else (c, JSNum.ofNat 0, x)
  String.mk ('#' :: roundedHexChannel ((rgb.1.add m).mul (JSNum.ofNat 255)) ++
    roundedHexChannel ((rgb.2.1.add m).mul (JSNum.ofNat 255)) ++
    roundedHexChannel ((rgb.2.2.add m).mul (JSNum.ofNat 255)))

/-- Embedding of the first script's `darkenColor`: scale HSL lightness by
(1 - amount), clamped below at 0. -/
def darkenColor (hex : String) (amount : JQ) : String :=
  let hsl := hexToHsl hex
  hslToHex hsl.1 hsl.2.1
    (JSNum.max2 (JSNum.ofNat 0) (hsl.2.2.mul ((JSNum.ofNat 1).sub (.fin amount))))

/-- Embedding of the first script's `lightenColor`: scale HSL lightness
by (1 + amount), clamped above at 100. -/
def lightenColor (hex : String) (amount : JQ) : String :=
  let hsl := hexToHsl hex
  hslToHex hsl.1 hsl.2.1
    (JSNum.min2 (JSNum.ofNat 100) (hsl.2.2.mul ((JSNum.ofNat 1).add (.fin amount))))

/-- Remove the first occurrence of a character, as JavaScript
`replace("#", "")` removes only the first match. -/
def removeFirstChar (c : Char) : List Char → List Char
  | [] => []
  | a :: r => if a = c then r else a :: removeFirstChar c r

/-- Embedding of the second script's `darkenColor`: parse RGB channels
and scale each by (1 - percent/100). -/
def darkenColorV2 (hex : String) (percent : JQ) : String :=
  let color := removeFirstChar '#' hex.data
  let r := parseIntHex (listSlice color 0 2)
  let g := parseIntHex (listSlice color 2 4)
  let b := parseIntHex (listSlice color 4 6)
  let factor := (JSNum.ofNat 1).sub ((JSNum.fin percent).div (JSNum.ofNat 100))
  String.mk ('#' :: roundedHexChannel (r.mul factor) ++
    roundedHexChannel (g.mul factor) ++ roundedHexChannel (b.mul factor))

/-- Embedding of the second script's `lightenColor`: move each RGB
channel toward 255 by percent/100. -/
def lightenColorV2 (hex : String) (percent : JQ) : String :=
  let color := removeFirstChar '#' hex.data
  let r := parseIntHex (listSlice color 0 2)
  let g := parseIntHex (listSlice color 2 4)
  let b := parseIntHex (listSlice color 4 6)
  let factor := (JSNum.fin percent).div (JSNum.ofNat 100)
  String.mk ('#' :: roundedHexChannel (r.add (((JSNum.ofNat 255).sub r).mul factor)) ++
    roundedHexChannel (g.add (((JSNum.ofNat 255).sub g).mul factor)) ++
    roundedHexChannel (b.add (((JSNum.ofNat 255).sub b).mul factor)))

/-- The spec's HSL shading route for darkening: convert hex to HSL, scale
lightness by (1 - f) clamped below at 0, convert back to hex. -/
def hslScaleDarken (hex : String) (f : JQ) : String :=
  let hsl := hexToHsl hex
  hslToHex hsl.1 hsl.2.1
    (JSNum.max2 (JSNum.ofNat 0) (hsl.2.2.mul ((JSNum.ofNat 1).sub (.fin f))))

/-- The spec's HSL shading route for lightening: lightness scaled by
(1 + f) clamped above at 100. -/
def hslScaleLighten (hex : String) (f : JQ) : String :=
  let hsl := hexToHsl hex
  hslToHex hsl.1 hsl.2.1
    (JSNum.min2 (JSNum.ofNat 100) (hsl.2.2.mul ((JSNum.ofNat 1).add (.fin f))))

/-- Well-formed lowercase hex color: a hash sign and six hex digits. -/
def isWellFormedHexColor (s : String) : Bool :=
  match s.data with
  | a :: rest => a = '#' && rest.length == 6 && rest.all isLowerHexDigit
  | [] => false

/-- Counterexample to claim C8: the second script's darkenColor (used by
the active renderer) does not equal the hex-to-HSL lightness-scaling
route at the well-formed color #50fa7b with fraction 1/4. -/
theorem claim_C8_counterexample :
    darkenColorV2 "#50fa7b" ⟨1, 4⟩ ≠ hslScaleDarken "#50fa7b" ⟨1, 4⟩ := by decide

/-- Claim C8 (amended): the first script's darkenColor and lightenColor
equal the HSL lightness-scaling route for every input, but the second
script's pair operates per-channel in RGB space with a percent argument
(darken: channel x (1 - p/100); lighten: channel + (255 - channel) x
p/100) and differs from the HSL route. -/
theorem claim_C8_amended :
    (∀ (c : String) (f : JQ), darkenColor c f = hslScaleDarken c f) ∧
    (∀ (c : String) (f : JQ), lightenColor c f = hslScaleLighten c f) ∧
    darkenColorV2 "#808080" ⟨25, 1⟩ = "#606060" ∧
    lightenColorV2 "#808080" ⟨25, 1⟩ = "#a0a0a0" :=
  ⟨fun _ _ => rfl, fun _ _ => rfl, by decide, by decide⟩

/-- Counterexample to claim C9: on the malformed hex input "#zzzzzz" the
shading functions signal no error at all; they return an ordinary string
whose channels read NaN. -/
theorem claim_C9_counterexample :
    darkenColor "#zzzzzz" ⟨1, 4⟩ = "#NaNNaNNaN" ∧
    lightenColor "#zzzzzz" ⟨1, 4⟩ = "#NaNNaNNaN" := by decide

/-!
Embedding of the second script's `renderRack`: frame primitives, then
the devices sorted by descending starting position (lower-positioned
devices paint last, on top), then the view label.  JavaScript's stable
`Array.prototype.sort` with comparator `(a, b) => b.position - a.position`
is modelled by a stable insertion sort whose ordering test
`b.position ≤ a.position` agrees with the comparator on finite numbers.
Constants: U_HEIGHT 22, RACK_WIDTH 220, RAIL_WIDTH 17, RACK_PADDING 4,
FULL_DEPTH_PX 24, HALF_DEPTH_PX 12.
-/

/-- Catalog entry of the second script. -/
structure PocDevice where
  slug : String
  model : String
  category : String
  colour : String
  u_height : JQ
  is_full_depth : Bool
  deriving DecidableEq, Repr

/-- Placed device of the second script. -/
structure PocPlacedDevice where
  device_type : String
  position : JQ
  colour_override : Option String
  deriving DecidableEq, Repr

/-- Rack of the second script. -/
structure PocRack where
  name : String
  height : JQ
  devices : List PocPlacedDevice
  deriving DecidableEq, Repr

/-- A vector drawing primitive of the emitted scene graph. -/
inductive SvgPrim where
  | rect (x y w h : JQ) (fill : String)
  | poly (points : List (JQ × JQ)) (fill : String)
  | text (x y : JQ) (content : String)
  deriving DecidableEq, Repr

/-- A positioned group of primitives (an SVG `g` with a translate). -/
structure RackGroup where
  tx : JQ
  ty : JQ
  prims : List SvgPrim
  deriving DecidableEq, Repr

/-- Stable insert for the descending-position sort. -/
def insertStable (le : PocPlacedDevice → PocPlacedDevice → Bool)
    (a : PocPlacedDevice) : List PocPlacedDevice → List PocPlacedDevice
  | [] => [a]
  | b :: l => if le a b then a :: b :: l else b :: insertStable le a l

/-- Stable insertion sort. -/
def sortStable (le : PocPlacedDevice → PocPlacedDevice → Bool) :
    List PocPlacedDevice → List PocPlacedDevice
  | [] => []
  | a :: l => insertStable le a (sortStable le l)

/-- Descending-position ordering test: a sorts before b when
b.position ≤ a.position. -/
def posDescLe (a b : PocPlacedDevice) : Bool := b.position.ble a.position

/-- The renderer's device emission order: devices sorted by descending
starting position. -/
def sortedDevices (rack : PocRack) : List PocPlacedDevice :=
  sortStable posDescLe rack.devices

/-- Pixels per rack unit in the second script. -/
def U_HEIGHT : JQ := ⟨22, 1⟩

/-- Rack front-face width in pixels. -/
def RACK_WIDTH : JQ := ⟨220, 1⟩

/-- Rail width in pixels. -/
def RAIL_WIDTH : JQ := ⟨17, 1⟩

/-- Hidden rack padding in pixels. -/
def RACK_PADDING : JQ := ⟨4, 1⟩

/-- Full-depth side panel width in pixels. -/
def FULL_DEPTH_PX : JQ := ⟨24, 1⟩

/-- Half-depth side panel width in pixels. -/
def HALF_DEPTH_PX : JQ := ⟨12, 1⟩

/-- Interior width: RACK_WIDTH - RAIL_WIDTH * 2. -/
def interiorWidth : JQ := RACK_WIDTH.sub (RAIL_WIDTH.mul ⟨2, 1⟩)

/-- Rack rail color of the dark theme. -/
def DARK_RACK_RAIL : String := "#404040"

/-- Rack interior color of the dark theme. -/
def DARK_RACK_INTERIOR : String := "#2d2d2d"

/-- Vertical position of the top-left corner of a device's front face
region: `(rack.height - position - u_height + 1) * U_HEIGHT +
RACK_PADDING + RAIL_WIDTH`. -/
def deviceY (rack : PocRack) (pd : PocPlacedDevice) (dev : PocDevice) : JQ :=
  ((((rack.height.sub pd.position).sub dev.u_height).add ⟨1, 1⟩).mul U_HEIGHT).add
    (RACK_PADDING.add RAIL_WIDTH)

/-- Device front-face height: `u_height * U_HEIGHT - 2`. -/
def deviceHeightPx (dev : PocDevice) : JQ := (dev.u_height.mul U_HEIGHT).sub ⟨2, 1⟩

/-- Device front-face width: `interiorWidth - 4`. -/
def deviceWidthPx : JQ := interiorWidth.sub ⟨4, 1⟩

/-- Device front-face x: `RAIL_WIDTH + 2`. -/
def deviceXPx : JQ := RAIL_WIDTH.add ⟨2, 1⟩

/-- The three primitives emitted for one placed device: side panel, top
panel, then the front-face rectangle (at deviceY + 1). -/
def devicePrims (rack : PocRack) (pd : PocPlacedDevice) (dev : PocDevice) :
    List SvgPrim :=
  let dy := deviceY rack pd dev
  let dh := deviceHeightPx dev
  let deviceColor := pd.colour_override.getD dev.colour
  let depthPx := if dev.is_full_depth then FULL_DEPTH_PX else HALF_DEPTH_PX
  let spX := deviceXPx.add deviceWidthPx
  let spY := dy.add ⟨1, 1⟩
  [SvgPrim.poly
      [(spX, spY), (spX.add depthPx, spY), (spX.add depthPx, spY.add dh),
       (spX, spY.add dh)]
      (darkenColorV2 deviceColor ⟨25, 1⟩),
   SvgPrim.poly
      [(deviceXPx, spY), (spX, spY), (spX.add depthPx, spY),
       (deviceXPx.add depthPx, spY)]
      (lightenColorV2 deviceColor ⟨15, 1⟩),
   SvgPrim.rect deviceXPx (dy.add ⟨1, 1⟩) deviceWidthPx dh deviceColor]

/-- Primitives of one placed device after catalog lookup; a slug that
does not resolve contributes nothing (the loop's `continue`). -/
def devicePrimsFor (rack : PocRack) (devices : List PocDevice)
    (pd : PocPlacedDevice) : List SvgPrim :=
  match devices.find? (fun d => d.slug == pd.device_type) with
  | none => []
  | some dev => devicePrims rack pd dev

/-- The rack frame primitives preceding the device loop: right side
depth, top surface, interior, top bar, bottom bar, left rail, right
rail. -/
def framePrims (rack : PocRack) : List SvgPrim :=
  let rackHeight := rack.height.mul U_HEIGHT
  let rsH := rackHeight.add (RAIL_WIDTH.mul ⟨2, 1⟩)
  [SvgPrim.poly
      [(RACK_WIDTH, RACK_PADDING), (RACK_WIDTH.add FULL_DEPTH_PX, RACK_PADDING),
       (RACK_WIDTH.add FULL_DEPTH_PX, RACK_PADDING.add rsH),
       (RACK_WIDTH, RACK_PADDING.add rsH)]
      (darkenColorV2 DARK_RACK_RAIL ⟨30, 1⟩),
   SvgPrim.poly
      [(⟨0, 1⟩, RACK_PADDING), (RACK_WIDTH, RACK_PADDING),
       (RACK_WIDTH.add FULL_DEPTH_PX, RACK_PADDING), (FULL_DEPTH_PX, RACK_PADDING)]
      (lightenColorV2 DARK_RACK_RAIL ⟨15, 1⟩),
   SvgPrim.rect RAIL_WIDTH (RACK_PADDING.add RAIL_WIDTH) interiorWidth rackHeight
     DARK_RACK_INTERIOR,
   SvgPrim.rect ⟨0, 1⟩ RACK_PADDING RACK_WIDTH RAIL_WIDTH DARK_RACK_RAIL,
   SvgPrim.rect ⟨0, 1⟩ ((RACK_PADDING.add RAIL_WIDTH).add rackHeight) RACK_WIDTH
     RAIL_WIDTH DARK_RACK_RAIL,
   SvgPrim.rect ⟨0, 1⟩ RACK_PADDING RAIL_WIDTH (rackHeight.add (RAIL_WIDTH.mul ⟨2, 1⟩))
     DARK_RACK_RAIL,
   SvgPrim.rect (RACK_WIDTH.sub RAIL_WIDTH) RACK_PADDING RAIL_WIDTH
     (rackHeight.add (RAIL_WIDTH.mul ⟨2, 1⟩)) DARK_RACK_RAIL]

/-- The view label text primitive appended last. -/
def viewLabelPrim (label : String) : SvgPrim :=
  SvgPrim.text (RACK_WIDTH.div ⟨2, 1⟩) ⟨-5, 1⟩ label

/-- Embedding of `renderRack`: a translated group holding the frame, the
sorted devices' primitives, and the view label, in emission order. -/
def renderRack (rack : PocRack) (devices : List PocDevice)
    (xOffset yOffset : JQ) (label : String) : RackGroup :=
  ⟨xOffset, yOffset,
   framePrims rack ++
     (sortedDevices rack).flatMap (devicePrimsFor rack devices) ++
     [viewLabelPrim label]⟩

theorem insertStable_perm (le : PocPlacedDevice → PocPlacedDevice → Bool)
    (a : PocPlacedDevice) (l : List PocPlacedDevice) :
    (insertStable le a l).Perm (a :: l) := by
  induction l with
  | nil => simp [insertStable]
  | cons b t ih =>
      simp only [insertStable]
      split
      · exact List.Perm.refl _
      · exact ((ih.cons b).trans (List.Perm.swap a b t))

theorem sortStable_perm (le : PocPlacedDevice → PocPlacedDevice → Bool)
    (l : List PocPlacedDevice) : (sortStable le l).Perm l := by
  induction l with
  | nil => exact List.Perm.refl _
  | cons a t ih => exact (insertStable_perm le a (sortStable le t)).trans (ih.cons a)

theorem mem_insertStable {le : PocPlacedDevice → PocPlacedDevice → Bool}
    {a x : PocPlacedDevice} {l : List PocPlacedDevice} :
    x ∈ insertStable le a l ↔ x = a ∨ x ∈ l := by
  rw [(insertStable_perm le a l).mem_iff]
  simp

theorem posDescLe_total (a b : PocPlacedDevice) :
    posDescLe a b = true ∨ posDescLe b a = true := by
  unfold posDescLe JQ.ble
  rcases Int.le_total (b.position.num * (a.position.den : Int))
    (a.position.num * (b.position.den : Int)) with h | h
  · exact Or.inl (by exact decide_eq_true h)
  · exact Or.inr (by exact decide_eq_true h)

theorem posDescLe_trans {a b c : PocPlacedDevice}
    (ha : a.position.WF) (hb : b.position.WF) (hc : c.position.WF)
    (h1 : posDescLe a b = true) (h2 : posDescLe b c = true) :
    posDescLe a c = true := by
  unfold posDescLe at *
  rw [JQ.ble_iff hb ha] at h1
  rw [JQ.ble_iff hc hb] at h2
  exact (JQ.ble_iff hc ha).mpr (le_trans h2 h1)

theorem pairwise_insertStable {a : PocPlacedDevice} {l : List PocPlacedDevice}
    (hPa : a.position.WF) (hPl : ∀ d ∈ l, d.position.WF)
    (hl : List.Pairwise (fun x y => posDescLe x y = true) l) :
    List.Pairwise (fun x y => posDescLe x y = true) (insertStable posDescLe a l) := by
  induction l with
  | nil => simp [insertStable]
  | cons b t ih =>
      simp only [insertStable]
      rw [List.pairwise_cons] at hl
      split
      · rename_i hab
        rw [List.pairwise_cons]
        refine ⟨?_, List.pairwise_cons.mpr hl⟩
        intro x hx
        rcases List.mem_cons.mp hx with hx2 | hx2
        · subst hx2
          exact hab
        · exact posDescLe_trans hPa (hPl b (by simp))
            (hPl x (by simp [hx2])) hab (hl.1 x hx2)
      · rename_i hab
        rw [List.pairwise_cons]
        constructor
        · intro x hx
          rcases mem_insertStable.mp hx with hx | hx
          · subst hx
            rcases posDescLe_total x b with h | h
            · exact absurd h hab
            · exact h
          · exact hl.1 x hx
        · exact ih (fun d hd => hPl d (by simp [hd])) hl.2

theorem pairwise_sortStable {l : List PocPlacedDevice}
    (hP : ∀ d ∈ l, d.position.WF) :
    List.Pairwise (fun x y => posDescLe x y = true) (sortStable posDescLe l) := by
  induction l with
  | nil => simp [sortStable]
  | cons a t ih =>
      simp only [sortStable]
      refine pairwise_insertStable (hP a (by simp)) ?_ (ih ?_)
      · intro d hd
        exact hP d (by
          have := (sortStable_perm posDescLe t).mem_iff.mp hd
          simp [this])
      · intro d hd
        exact hP d (by simp [hd])

/-- Claim C7: device drawing primitives appear in strictly descending
order of starting U position: the emission order is a permutation of the
rack's devices in which any device with a strictly smaller position
comes strictly later (paints last, on top), and the scene graph is the
frame followed by each emitted device's primitives in that order,
followed by the view label. -/
theorem claim_C7_paint_order (rack : PocRack)
    (hWF : ∀ d ∈ rack.devices, d.position.WF) :
    (sortedDevices rack).Perm rack.devices ∧
    (∀ i j : Fin (sortedDevices rack).length,
       ((sortedDevices rack).get i).position.val <
         ((sortedDevices rack).get j).position.val → (j : Nat) < (i : Nat)) ∧
    (∀ (devices : List PocDevice) (xOffset yOffset : JQ) (label : String),
       (renderRack rack devices xOffset yOffset label).prims =
         framePrims rack ++
           (sortedDevices rack).flatMap (devicePrimsFor rack devices) ++
           [viewLabelPrim label]) := by
  have hperm := sortStable_perm posDescLe rack.devices
  have hWFs : ∀ d ∈ sortedDevices rack, d.position.WF :=
    fun d hd => hWF d (hperm.mem_iff.mp hd)
  have hpair := pairwise_sortStable (l := rack.devices) hWF
  refine ⟨hperm, ?_, fun _ _ _ _ => rfl⟩
  intro i j hlt
  by_contra hji
  push_neg at hji
  rcases Nat.lt_or_ge (i : Nat) (j : Nat) with hij | hij
  · have hR := (List.pairwise_iff_get.mp hpair) i j (by exact hij)
    have hle := (JQ.ble_iff
      (hWFs _ (List.get_mem _ j.1 j.2)) (hWFs _ (List.get_mem _ i.1 i.2))).mp hR
    exact absurd hlt (not_lt.mpr hle)
  · have : (i : Nat) = (j : Nat) := by omega
    have hij2 : i = j := Fin.ext this
    subst hij2
    exact lt_irrefl _ hlt

/-- Witness for claim C7 at a concrete two-device rack. -/
theorem claim_C7_witness :
    (∀ d ∈ (PocRack.mk "r" ⟨12, 1⟩
        [⟨"ups", ⟨1, 1⟩, none⟩, ⟨"switch", ⟨4, 1⟩, none⟩]).devices,
      d.position.WF) ∧
    (sortedDevices (PocRack.mk "r" ⟨12, 1⟩
        [⟨"ups", ⟨1, 1⟩, none⟩, ⟨"switch", ⟨4, 1⟩, none⟩])).Perm
      (PocRack.mk "r" ⟨12, 1⟩
        [⟨"ups", ⟨1, 1⟩, none⟩, ⟨"switch", ⟨4, 1⟩, none⟩]).devices :=
  ⟨by decide,
   (claim_C7_paint_order
      (PocRack.mk "r" ⟨12, 1⟩
        [⟨"ups", ⟨1, 1⟩, none⟩, ⟨"switch", ⟨4, 1⟩, none⟩])
      (by decide)).1⟩

theorem deviceY_val {rack : PocRack} {pd : PocPlacedDevice} {dev : PocDevice}
    (hr : rack.height.WF) (hp : pd.position.WF) (hu : dev.u_height.WF) :
    (deviceY rack pd dev).val =
      (rack.height.val - pd.position.val - dev.u_height.val + 1) * 22 + 21 := by
  unfold deviceY
  have w1 : (rack.height.sub pd.position).WF := hr.sub hp
  have w2 : ((rack.height.sub pd.position).sub dev.u_height).WF := w1.sub hu
  have w3 : ((((rack.height.sub pd.position).sub dev.u_height)).add ⟨1, 1⟩).WF :=
    w2.add (by decide)
  rw [JQ.val_add (w3.mul (by decide)) (by decide),
    JQ.val_mul w3 (by decide), JQ.val_add w2 (by decide),
    JQ.val_sub w1 hu, JQ.val_sub hr hp]
  norm_num [U_HEIGHT, RACK_PADDING, RAIL_WIDTH, JQ.val, JQ.add]

/-- Counterexample to claim C2: the emitted device rectangle width is
interiorWidth - 4 = 182 pixels, not rackWidthPx - 2 x railWidthPx = 186. -/
theorem claim_C2_counterexample :
    deviceWidthPx.val ≠ RACK_WIDTH.val - 2 * RAIL_WIDTH.val ∧
    deviceWidthPx.val = 182 ∧ RACK_WIDTH.val - 2 * RAIL_WIDTH.val = 186 := by
  norm_num [deviceWidthPx, interiorWidth, RACK_WIDTH, RAIL_WIDTH, JQ.val,
    JQ.sub, JQ.mul]

/-- Claim C2 (amended): for every placed device with a valid
(position, height) inside rack bounds, the computed deviceY equals
(rack.height - position - deviceHeightUnits + 1) x unitHeightPx +
(RACK_PADDING + RAIL_WIDTH), the front-face rectangle is drawn at
deviceY + 1, and its width is rackWidthPx - 2 x railWidthPx - 4
(a further 2-pixel inset on each side), i.e. 182 for the 220-pixel rack;
for rack height 42, position 1, u_height 2 the deviceY value is
(42 - 1 - 2 + 1) x 22 + 21. -/
theorem claim_C2_amended (rack : PocRack) (pd : PocPlacedDevice) (dev : PocDevice)
    (hr : rack.height.WF) (hp : pd.position.WF) (hu : dev.u_height.WF)
    (hin : 1 ≤ pd.position.val ∧
      pd.position.val + dev.u_height.val - 1 ≤ rack.height.val) :
    (deviceY rack pd dev).val =
      (rack.height.val - pd.position.val - dev.u_height.val + 1) * 22 + 21 ∧
    deviceWidthPx.val = RACK_WIDTH.val - 2 * RAIL_WIDTH.val - 4 ∧
    (∃ p1 p2, devicePrims rack pd dev =
      [p1, p2,
       SvgPrim.rect deviceXPx ((deviceY rack pd dev).add ⟨1, 1⟩) deviceWidthPx
         (deviceHeightPx dev) (pd.colour_override.getD dev.colour)]) := by
  refine ⟨deviceY_val hr hp hu, ?_, ⟨_, _, rfl⟩⟩
  norm_num [deviceWidthPx, interiorWidth, RACK_WIDTH, RAIL_WIDTH, JQ.val,
    JQ.sub, JQ.mul]

/-- Witness for claim C2 at the spec scenario: rack height 42, position
1, u_height 2. -/
theorem claim_C2_witness :
    ((JQ.mk 42 1).WF ∧ (JQ.mk 1 1).WF ∧ (JQ.mk 2 1).WF ∧
      (1 ≤ (JQ.mk 1 1).val ∧
        (JQ.mk 1 1).val + (JQ.mk 2 1).val - 1 ≤ (JQ.mk 42 1).val)) ∧
    (deviceY (PocRack.mk "r" ⟨42, 1⟩ [])
        (PocPlacedDevice.mk "ups" ⟨1, 1⟩ none)
        (PocDevice.mk "ups" "UPS" "power" "#e74c3c" ⟨2, 1⟩ true)).val =
      ((JQ.mk 42 1).val - (JQ.mk 1 1).val - (JQ.mk 2 1).val + 1) * 22 + 21 :=
  ⟨⟨by decide, by decide, by decide, by norm_num [JQ.val]⟩,
   (claim_C2_amended (PocRack.mk "r" ⟨42, 1⟩ [])
      (PocPlacedDevice.mk "ups" ⟨1, 1⟩ none)
      (PocDevice.mk "ups" "UPS" "power" "#e74c3c" ⟨2, 1⟩ true)
      (by decide) (by decide) (by decide) (by norm_num [JQ.val])).1⟩

/-- Out-of-bounds demo rack: a 2U device starting at the top unit of a
24U rack, so its occupied range [24, 25] exceeds the rack height. -/
def oobRack : PocRack := ⟨"r", ⟨24, 1⟩, [⟨"srv", ⟨24, 1⟩, none⟩]⟩

/-- Catalog for the out-of-bounds demo. -/
def oobDevs : List PocDevice := [⟨"srv", "Srv", "server", "#3498db", ⟨2, 1⟩, true⟩]

/-- Counterexample to claim C5: the out-of-range placement raises no
error; renderRack emits its front-face rectangle normally (here at pixel
y = 0, above the rack interior top at y = 21). -/
theorem claim_C5_counterexample :
    ((renderRack oobRack oobDevs ⟨0, 1⟩ ⟨0, 1⟩ "FRONT").prims.any
      (fun p => match p with
        | .rect _ y _ _ _ => y.beqv ⟨0, 1⟩
        | _ => false)) = true := by decide

/-- Claim C5 (amended): the device-rectangle computation contains no
bounds check and no error value: for every placement whose occupied
range exceeds the rack height, the computed deviceY falls strictly above
the rack interior top (deviceY < RACK_PADDING + RAIL_WIDTH = 21) and the
device's three primitives are still emitted with the unclamped
coordinates. -/
theorem claim_C5_amended (rack : PocRack) (pd : PocPlacedDevice) (dev : PocDevice)
    (hr : rack.height.WF) (hp : pd.position.WF) (hu : dev.u_height.WF)
    (hout : rack.height.val < pd.position.val + dev.u_height.val - 1) :
    (deviceY rack pd dev).val < RACK_PADDING.val + RAIL_WIDTH.val ∧
    (∃ p1 p2, devicePrims rack pd dev =
      [p1, p2,
       SvgPrim.rect deviceXPx ((deviceY rack pd dev).add ⟨1, 1⟩) deviceWidthPx
         (deviceHeightPx dev) (pd.colour_override.getD dev.colour)]) := by
  refine ⟨?_, ⟨_, _, rfl⟩⟩
  rw [deviceY_val hr hp hu]
  have hpad : RACK_PADDING.val + RAIL_WIDTH.val = 21 := by
    norm_num [RACK_PADDING, RAIL_WIDTH, JQ.val]
  rw [hpad]
  nlinarith [hout]

/-- Witness for claim C5 at the concrete out-of-bounds input. -/
theorem claim_C5_witness :
    ((JQ.mk 24 1).WF ∧ (JQ.mk 24 1).WF ∧ (JQ.mk 2 1).WF ∧
      (JQ.mk 24 1).val < (JQ.mk 24 1).val + (JQ.mk 2 1).val - 1) ∧
    (deviceY oobRack ⟨"srv", ⟨24, 1⟩, none⟩
        ⟨"srv", "Srv", "server", "#3498db", ⟨2, 1⟩, true⟩).val <
      RACK_PADDING.val + RAIL_WIDTH.val :=
  ⟨⟨by decide, by decide, by decide, by norm_num [JQ.val]⟩,
   (claim_C5_amended oobRack ⟨"srv", ⟨24, 1⟩, none⟩
      ⟨"srv", "Srv", "server", "#3498db", ⟨2, 1⟩, true⟩
      (by decide) (by decide) (by decide) (by norm_num [oobRack, JQ.val])).1⟩

theorem lowerHex_val {c : Char} (h : isLowerHexDigit c = true) :
    ∃ v, hexDigitVal? c = some v ∧ v < 16 := by
  simp only [isLowerHexDigit, Bool.or_eq_true, Bool.and_eq_true,
    decide_eq_true_eq] at h
  unfold hexDigitVal?
  rcases h with ⟨h1, h2⟩ | ⟨h1, h2⟩
  · rw [if_pos ⟨h1, h2⟩]
    exact ⟨_, rfl, by omega⟩
  · rw [if_neg (by omega), if_pos ⟨h1, h2⟩]
    exact ⟨_, rfl, by omega⟩

theorem lowerHex_not_ws {c : Char} (h : isLowerHexDigit c = true) :
    (decide (c = ' ' ∨ c = '\t' ∨ c = '\n' ∨ c = '\r')) = false := by
  apply decide_eq_false
  rintro (rfl | rfl | rfl | rfl) <;> exact absurd h (by decide)

theorem lowerHex_ne_dash {c : Char} (h : isLowerHexDigit c = true) : c ≠ '-' := by
  rintro rfl; exact absurd h (by decide)

theorem lowerHex_ne_plus {c : Char} (h : isLowerHexDigit c = true) : c ≠ '+' := by
  rintro rfl; exact absurd h (by decide)

theorem lowerHex_ne_x {c : Char} (h : isLowerHexDigit c = true) :
    ¬(c = 'x' ∨ c = 'X') := by
  rintro (rfl | rfl) <;> exact absurd h (by decide)

theorem parseIntHex_pair {a b : Char} {va vb : Nat}
    (ha : isLowerHexDigit a = true) (hb : isLowerHexDigit b = true)
    (hva : hexDigitVal? a = some va) (hvb : hexDigitVal? b = some vb) :
    parseIntHex [a, b] = .fin ⟨(va * 16 + vb : Nat), 1⟩ := by
  unfold parseIntHex
  rw [List.dropWhile_cons, lowerHex_not_ws ha]
  simp only [Bool.false_eq_true, if_false]
  rw [if_neg (lowerHex_ne_dash ha), if_neg (lowerHex_ne_plus ha)]
  unfold parseIntHexCore
  have hstrip : strip0x [a, b] =
      if a = '0' ∧ (b = 'x' ∨ b = 'X') then ([] : List Char) else [a, b] := rfl
  rw [hstrip, if_neg (show ¬(a = '0' ∧ (b = 'x' ∨ b = 'X')) from
    fun hand => lowerHex_ne_x hb hand.2)]
  simp only [List.takeWhile_cons, hva, hvb, Option.isSome_some, if_true,
    List.takeWhile_nil, List.isEmpty_cons, Bool.false_eq_true, if_false,
    List.foldl_cons, List.foldl_nil, Option.getD_some]
  norm_num [Nat.mul_comm]

theorem JSNum.div_fin {x y : JQ} (hy : y.num ≠ 0) :
    JSNum.div (.fin x) (.fin y) = .fin (x.div y) := by
  simp [JSNum.div, hy]

theorem JSNum.max2_fin_val {x y : JQ} (hx : x.WF) (hy : y.WF) :
    ∃ m : JQ, JSNum.max2 (.fin x) (.fin y) = .fin m ∧ m.WF ∧
      m.val = max x.val y.val := by
  by_cases hlt : x.blt y = true
  · refine ⟨y, ?_, hy, (max_eq_right (le_of_lt ((JQ.blt_iff hx hy).mp hlt))).symm⟩
    simp [JSNum.max2, JSNum.lt, hlt]
  · refine ⟨x, ?_, hx, (max_eq_left ?_).symm⟩
    · simp [JSNum.max2, JSNum.lt, hlt]
    · have := (JQ.blt_iff hx hy).not.mp (by simp [hlt])
      exact not_lt.mp this

theorem JSNum.min2_fin_val {x y : JQ} (hx : x.WF) (hy : y.WF) :
    ∃ m : JQ, JSNum.min2 (.fin x) (.fin y) = .fin m ∧ m.WF ∧
      m.val = min x.val y.val := by
  by_cases hlt : y.blt x = true
  · refine ⟨y, ?_, hy, (min_eq_right (le_of_lt ((JQ.blt_iff hy hx).mp hlt))).symm⟩
    simp [JSNum.min2, JSNum.lt, hlt]
  · refine ⟨x, ?_, hx, (min_eq_left ?_).symm⟩
    · simp [JSNum.min2, JSNum.lt, hlt]
    · have := (JQ.blt_iff hy hx).not.mp (by simp [hlt])
      exact not_lt.mp this

theorem wellFormedHex_destruct {s : String}
    (h : isWellFormedHexColor s = true) :
    ∃ c1 c2 c3 c4 c5 c6, s.data = ['#', c1, c2, c3, c4, c5, c6] ∧
      isLowerHexDigit c1 = true ∧ isLowerHexDigit c2 = true ∧
      isLowerHexDigit c3 = true ∧ isLowerHexDigit c4 = true ∧
      isLowerHexDigit c5 = true ∧ isLowerHexDigit c6 = true := by
  unfold isWellFormedHexColor at h
  rcases hd : s.data with _ | ⟨a, rest⟩
  · rw [hd] at h; simp at h
  · rw [hd] at h
    simp only [Bool.and_eq_true, decide_eq_true_eq, beq_iff_eq] at h
    obtain ⟨⟨rfl, hlen⟩, hall⟩ := h
    rcases rest with _ | ⟨c1, _ | ⟨c2, _ | ⟨c3, _ | ⟨c4, _ | ⟨c5, _ | ⟨c6,
        _ | ⟨c7, rest8⟩⟩⟩⟩⟩⟩⟩ <;>
      simp only [List.length_cons, List.length_nil] at hlen <;> try omega
    simp only [List.all_cons, List.all_nil, Bool.and_eq_true] at hall
    exact ⟨c1, c2, c3, c4, c5, c6, rfl, hall.1, hall.2.1, hall.2.2.1,
      hall.2.2.2.1, hall.2.2.2.2.1, hall.2.2.2.2.2.1⟩

theorem JQ.num_ne_zero_of_val_pos {q : JQ} (h : 0 < q.val) : q.num ≠ 0 := by
  intro h0
  rw [JQ.val, h0] at h
  simp at h

theorem hslChannels_wf {c : String} (h : isWellFormedHexColor c = true) :
    ∃ q1 q2 q3 : JQ, hslChannels c = (.fin q1, .fin q2, .fin q3) ∧
      q1.WF ∧ q2.WF ∧ q3.WF ∧
      0 ≤ q1.val ∧ q1.val ≤ 1 ∧ 0 ≤ q2.val ∧ q2.val ≤ 1 ∧
      0 ≤ q3.val ∧ q3.val ≤ 1 := by
  obtain ⟨c1, c2, c3, c4, c5, c6, hdata, h1, h2, h3, h4, h5, h6⟩ :=
    wellFormedHex_destruct h
  obtain ⟨v1, hv1, hb1⟩ := lowerHex_val h1
  obtain ⟨v2, hv2, hb2⟩ := lowerHex_val h2
  obtain ⟨v3, hv3, hb3⟩ := lowerHex_val h3
  obtain ⟨v4, hv4, hb4⟩ := lowerHex_val h4
  obtain ⟨v5, hv5, hb5⟩ := lowerHex_val h5
  obtain ⟨v6, hv6, hb6⟩ := lowerHex_val h6
  have hr : parseIntHex (listSlice c.data 1 3) = .fin ⟨((v1 * 16 + v2 : Nat) : Int), 1⟩ := by
    rw [hdata]; exact parseIntHex_pair h1 h2 hv1 hv2
  have hg : parseIntHex (listSlice c.data 3 5) = .fin ⟨((v3 * 16 + v4 : Nat) : Int), 1⟩ := by
    rw [hdata]; exact parseIntHex_pair h3 h4 hv3 hv4
  have hb : parseIntHex (listSlice c.data 5 7) = .fin ⟨((v5 * 16 + v6 : Nat) : Int), 1⟩ := by
    rw [hdata]; exact parseIntHex_pair h5 h6 hv5 hv6
  have hdiv : ∀ n : Nat, n < 256 →
      ∃ q : JQ, JSNum.div (.fin ⟨(n : Int), 1⟩) (JSNum.ofNat 255) = .fin q ∧
        q.WF ∧ 0 ≤ q.val ∧ q.val ≤ 1 := by
    intro n hn
    have hxwf : (JQ.mk (n : Int) 1).WF := by simp [JQ.WF]
    have hynum : (JQ.mk 255 1).num ≠ 0 := by decide
    have hywf : (JQ.mk 255 1).WF := by decide
    refine ⟨JQ.div ⟨(n : Int), 1⟩ ⟨255, 1⟩, JSNum.div_fin hynum, ?_, ?_, ?_⟩
    · exact JQ.WF.div hxwf hynum
    · rw [JQ.val_div hxwf hywf hynum]
      have hn' : (JQ.mk (n : Int) 1).val = (n : ℚ) := by simp [JQ.val]
      have h255 : (JQ.mk 255 1).val = (255 : ℚ) := by norm_num [JQ.val]
      rw [hn', h255]
      positivity
    · rw [JQ.val_div hxwf hywf hynum]
      have hn' : (JQ.mk (n : Int) 1).val = (n : ℚ) := by simp [JQ.val]
      have h255 : (JQ.mk 255 1).val = (255 : ℚ) := by norm_num [JQ.val]
      rw [hn', h255]
      rw [div_le_one (by norm_num)]
      exact_mod_cast Nat.le_of_lt_succ (by omega)
  obtain ⟨q1, he1, hw1, hge1, hle1⟩ := hdiv (v1 * 16 + v2) (by omega)
  obtain ⟨q2, he2, hw2, hge2, hle2⟩ := hdiv (v3 * 16 + v4) (by omega)
  obtain ⟨q3, he3, hw3, hge3, hle3⟩ := hdiv (v5 * 16 + v6) (by omega)
  refine ⟨q1, q2, q3, ?_, hw1, hw2, hw3, hge1, hle1, hge2, hle2, hge3, hle3⟩
  simp only [hslChannels]
  rw [hr, hg, hb, he1, he2, he3]

theorem JSNum.add_fin (x y : JQ) : JSNum.add (.fin x) (.fin y) = .fin (x.add y) := rfl

theorem JSNum.sub_fin (x y : JQ) :
    JSNum.sub (.fin x) (.fin y) = .fin (x.add y.neg) := rfl

theorem JSNum.mul_fin (x y : JQ) : JSNum.mul (.fin x) (.fin y) = .fin (x.mul y) := rfl

theorem JSNum.lt_fin (x y : JQ) : JSNum.lt (.fin x) (.fin y) = x.blt y := rfl

theorem JSNum.seq_fin (x y : JQ) : JSNum.seq (.fin x) (.fin y) = x.beqv y := rfl

theorem JQ.WF.neg {x : JQ} (h : x.WF) : x.neg.WF := h

theorem JQ.val_subm {x y : JQ} (hx : x.WF) (hy : y.WF) :
    (x.add y.neg).val = x.val - y.val := by
  rw [JQ.val_add hx hy.neg, JQ.val_neg]
  ring

theorem hue_expr_wf (a b dq off : JQ) (ha : a.WF) (hb : b.WF) (hd : dq.WF)
    (hdnum : dq.num ≠ 0) (hoff : off.WF) :
    ∃ hq : JQ,
      JSNum.div (JSNum.add (JSNum.div (JSNum.sub (.fin a) (.fin b)) (.fin dq))
          (.fin off)) (JSNum.ofNat 6) = .fin hq ∧ hq.WF ∧
      hq.val = ((a.val - b.val) / dq.val + off.val) / 6 := by
  rw [JSNum.sub_fin, JSNum.div_fin hdnum, JSNum.add_fin,
    show (JSNum.ofNat 6) = .fin (JQ.ofNat 6) from rfl,
    JSNum.div_fin (show (JQ.ofNat 6).num ≠ 0 by decide)]
  have w1 : (a.add b.neg).WF := ha.add hb.neg
  have w2 : ((a.add b.neg).div dq).WF := w1.div hdnum
  have w3 : (((a.add b.neg).div dq).add off).WF := w2.add hoff
  refine ⟨_, rfl, w3.div (show (JQ.ofNat 6).num ≠ 0 by decide), ?_⟩
  rw [JQ.val_div w3 (by decide) (by decide), JQ.val_add w2 hoff,
    JQ.val_div w1 hd hdnum, JQ.val_subm ha hb]
  norm_num [JQ.ofNat, JQ.val]

theorem hslSat_wf {mx mn d lq : JQ} (wmx : mx.WF) (wmn : mn.WF) (wd : d.WF)
    (wl : lq.WF) (hdnum : d.num ≠ 0) (hdv : d.val = mx.val - mn.val)
    (hmn0 : 0 ≤ mn.val) (hlt : mn.val < mx.val) (hmx1 : mx.val ≤ 1)
    (hlv : lq.val = (mx.val + mn.val) / 2) :
    ∃ sq : JQ, hslSat (.fin mx) (.fin mn) (.fin d) (.fin lq) = .fin sq ∧
      sq.WF ∧ 0 ≤ sq.val ∧ sq.val ≤ 1 := by
  unfold hslSat
  rw [JSNum.lt_fin]
  by_cases hhalf : (JQ.mk 1 2).blt lq = true
  · rw [if_pos hhalf]
    have hgt : (1 : ℚ) / 2 < lq.val := by
      have := (JQ.blt_iff (by decide) wl).mp hhalf
      simpa [JQ.val] using this
    have hsum : 1 < mx.val + mn.val := by
      rw [hlv] at hgt; linarith
    rw [JSNum.add_fin, show JSNum.ofNat 2 = .fin (JQ.ofNat 2) from rfl,
      JSNum.sub_fin]
    have wden : ((JQ.ofNat 2).add (mx.add mn).neg).WF :=
      JQ.WF.add (by decide) (wmx.add wmn).neg
    have hdenv : ((JQ.ofNat 2).add (mx.add mn).neg).val = 2 - (mx.val + mn.val) := by
      rw [JQ.val_subm (by decide) (wmx.add wmn), JQ.val_add wmx wmn]
      norm_num [JQ.ofNat, JQ.val]
    have hdenpos : 0 < ((JQ.ofNat 2).add (mx.add mn).neg).val := by
      rw [hdenv]; linarith
    have hdennum : ((JQ.ofNat 2).add (mx.add mn).neg).num ≠ 0 :=
      JQ.num_ne_zero_of_val_pos hdenpos
    rw [JSNum.div_fin hdennum]
    refine ⟨_, rfl, wd.div hdennum, ?_, ?_⟩
    · rw [JQ.val_div wd wden hdennum, hdenv, hdv]
      apply div_nonneg <;> linarith
    · rw [JQ.val_div wd wden hdennum, hdenv, hdv]
      rw [div_le_one (by linarith)]
      linarith
  · rw [if_neg hhalf]
    rw [JSNum.add_fin]
    have wden : (mx.add mn).WF := wmx.add wmn
    have hdenv : (mx.add mn).val = mx.val + mn.val := JQ.val_add wmx wmn
    have hdenpos : 0 < (mx.add mn).val := by rw [hdenv]; linarith
    have hdennum : (mx.add mn).num ≠ 0 := JQ.num_ne_zero_of_val_pos hdenpos
    rw [JSNum.div_fin hdennum]
    refine ⟨_, rfl, wd.div hdennum, ?_, ?_⟩
    · rw [JQ.val_div wd wden hdennum, hdenv, hdv]
      apply div_nonneg <;> linarith
    · rw [JQ.val_div wd wden hdennum, hdenv, hdv]
      rw [div_le_one (by linarith)]
      linarith

theorem hslHue_wf {r g b mx d : JQ} (hr : r.WF) (hg : g.WF) (hb : b.WF)
    (wmx : mx.WF) (wd : d.WF) (hdnum : d.num ≠ 0) (hdpos : 0 < d.val)
    (hrub : r.val ≤ mx.val) (hgub : g.val ≤ mx.val) (hbub : b.val ≤ mx.val)
    (hrlb : mx.val - d.val ≤ r.val) (hglb : mx.val - d.val ≤ g.val)
    (hblb : mx.val - d.val ≤ b.val) :
    ∃ hq : JQ, hslHue (.fin r) (.fin g) (.fin b) (.fin mx) (.fin d) = .fin hq ∧
      hq.WF ∧ 0 ≤ hq.val ∧ hq.val ≤ 1 := by
  unfold hslHue
  rw [JSNum.seq_fin, JSNum.seq_fin, JSNum.seq_fin, JSNum.lt_fin]
  by_cases hcr : mx.beqv r = true
  · rw [if_pos hcr]
    have hmr : mx.val = r.val := (JQ.beqv_iff wmx hr).mp hcr
    have hub : (g.val - b.val) / d.val ≤ 1 := by
      rw [div_le_one hdpos]; linarith
    have hlb : -1 ≤ (g.val - b.val) / d.val := by
      rw [le_div_iff₀ hdpos]; linarith
    by_cases hgb : g.blt b = true
    · rw [if_pos hgb]
      have hglt : g.val < b.val := (JQ.blt_iff hg hb).mp hgb
      obtain ⟨hq, he, hw, hv⟩ := hue_expr_wf g b d (JQ.ofNat 6) hg hb wd hdnum (by decide)
      refine ⟨hq, he, hw, ?_, ?_⟩
      · rw [hv]
        have h6 : (JQ.ofNat 6).val = 6 := by norm_num [JQ.ofNat, JQ.val]
        rw [h6]
        apply div_nonneg (by linarith) (by norm_num)
      · rw [hv]
        have h6 : (JQ.ofNat 6).val = 6 := by norm_num [JQ.ofNat, JQ.val]
        rw [h6, div_le_one (by norm_num)]
        have hneg : (g.val - b.val) / d.val < 0 :=
          div_neg_of_neg_of_pos (by linarith) hdpos
        linarith
    · rw [if_neg hgb]
      have hge : b.val ≤ g.val := by
        have := (JQ.blt_iff hg hb).not.mp (by simp [hgb])
        linarith [not_lt.mp this]
      obtain ⟨hq, he, hw, hv⟩ := hue_expr_wf g b d (JQ.ofNat 0) hg hb wd hdnum (by decide)
      refine ⟨hq, he, hw, ?_, ?_⟩
      · rw [hv]
        have h0 : (JQ.ofNat 0).val = 0 := by norm_num [JQ.ofNat, JQ.val]
        rw [h0]
        apply div_nonneg ?_ (by norm_num)
        have : 0 ≤ (g.val - b.val) / d.val :=
          div_nonneg (by linarith) (le_of_lt hdpos)
        linarith
      · rw [hv]
        have h0 : (JQ.ofNat 0).val = 0 := by norm_num [JQ.ofNat, JQ.val]
        rw [h0, div_le_one (by norm_num)]
        linarith
  · rw [if_neg hcr]
    by_cases hcg : mx.beqv g = true
    · rw [if_pos hcg]
      have hmg : mx.val = g.val := (JQ.beqv_iff wmx hg).mp hcg
      have hub : (b.val - r.val) / d.val ≤ 1 := by
        rw [div_le_one hdpos]; linarith
      have hlb : -1 ≤ (b.val - r.val) / d.val := by
        rw [le_div_iff₀ hdpos]; linarith
      obtain ⟨hq, he, hw, hv⟩ := hue_expr_wf b r d (JQ.ofNat 2) hb hr wd hdnum (by decide)
      refine ⟨hq, he, hw, ?_, ?_⟩
      · rw [hv]
        have h2 : (JQ.ofNat 2).val = 2 := by norm_num [JQ.ofNat, JQ.val]
        rw [h2]
        apply div_nonneg (by linarith) (by norm_num)
      · rw [hv]
        have h2 : (JQ.ofNat 2).val = 2 := by norm_num [JQ.ofNat, JQ.val]
        rw [h2, div_le_one (by norm_num)]
        linarith
    · rw [if_neg hcg]
      by_cases hcb : mx.beqv b = true
      · rw [if_pos hcb]
        have hmb : mx.val = b.val := (JQ.beqv_iff wmx hb).mp hcb
        have hub : (r.val - g.val) / d.val ≤ 1 := by
          rw [div_le_one hdpos]; linarith
        have hlb : -1 ≤ (r.val - g.val) / d.val := by
          rw [le_div_iff₀ hdpos]; linarith
        obtain ⟨hq, he, hw, hv⟩ := hue_expr_wf r g d (JQ.ofNat 4) hr hg wd hdnum (by decide)
        refine ⟨hq, he, hw, ?_, ?_⟩
        · rw [hv]
          have h4 : (JQ.ofNat 4).val = 4 := by norm_num [JQ.ofNat, JQ.val]
          rw [h4]
          apply div_nonneg (by linarith) (by norm_num)
        · rw [hv]
          have h4 : (JQ.ofNat 4).val = 4 := by norm_num [JQ.ofNat, JQ.val]
          rw [h4, div_le_one (by norm_num)]
          linarith
      · rw [if_neg hcb]
        exact ⟨JQ.ofNat 0, rfl, by decide, by norm_num [JQ.ofNat, JQ.val],
          by norm_num [JQ.ofNat, JQ.val]⟩

theorem hslFromChannels_wf {r g b : JQ} (hr : r.WF) (hg : g.WF) (hb : b.WF)
    (hr0 : 0 ≤ r.val) (hr1 : r.val ≤ 1) (hg0 : 0 ≤ g.val) (hg1 : g.val ≤ 1)
    (hb0 : 0 ≤ b.val) (hb1 : b.val ≤ 1) :
    ∃ h0 s0 l0 : JQ,
      hslFromChannels (.fin r) (.fin g) (.fin b) = (.fin h0, .fin s0, .fin l0) ∧
      h0.WF ∧ s0.WF ∧ l0.WF ∧ 0 ≤ h0.val ∧ 0 ≤ s0.val ∧ s0.val ≤ 100 ∧
      0 ≤ l0.val ∧ l0.val ≤ 100 := by
  obtain ⟨mx1, emx1, wmx1, vmx1⟩ := JSNum.max2_fin_val hr hg
  obtain ⟨mn1, emn1, wmn1, vmn1⟩ := JSNum.min2_fin_val hr hg
  have emx' : JSNum.max2 (JSNum.max2 (.fin r) (.fin g)) (.fin b) =
      JSNum.max2 (.fin mx1) (.fin b) := by rw [emx1]
  have emn' : JSNum.min2 (JSNum.min2 (.fin r) (.fin g)) (.fin b) =
      JSNum.min2 (.fin mn1) (.fin b) := by rw [emn1]
  obtain ⟨mx, emx, wmx, vmx⟩ := JSNum.max2_fin_val wmx1 hb
  obtain ⟨mn, emn, wmn, vmn⟩ := JSNum.min2_fin_val wmn1 hb
  have hmxv : mx.val = max (max r.val g.val) b.val := by rw [vmx, vmx1]
  have hmnv : mn.val = min (min r.val g.val) b.val := by rw [vmn, vmn1]
  have hrub : r.val ≤ mx.val := by
    rw [hmxv]; exact le_trans (le_max_left _ _) (le_max_left _ _)
  have hgub : g.val ≤ mx.val := by
    rw [hmxv]; exact le_trans (le_max_right _ _) (le_max_left _ _)
  have hbub : b.val ≤ mx.val := by rw [hmxv]; exact le_max_right _ _
  have hrlb : mn.val ≤ r.val := by
    rw [hmnv]; exact le_trans (min_le_left _ _) (min_le_left _ _)
  have hglb : mn.val ≤ g.val := by
    rw [hmnv]; exact le_trans (min_le_left _ _) (min_le_right _ _)
  have hblb : mn.val ≤ b.val := by rw [hmnv]; exact min_le_right _ _
  have hmx1q : mx.val ≤ 1 := by
    rw [hmxv]; exact max_le (max_le hr1 hg1) hb1
  have hmn0 : 0 ≤ mn.val := by
    rw [hmnv]; exact le_min (le_min hr0 hg0) hb0
  have hmnmx : mn.val ≤ mx.val := le_trans hrlb hrub
  have hmx0 : 0 ≤ mx.val := le_trans hmn0 hmnmx
  have hmn1q : mn.val ≤ 1 := le_trans hmnmx hmx1q
  have el : JSNum.div (JSNum.add (.fin mx) (.fin mn)) (JSNum.ofNat 2) =
      .fin ((mx.add mn).div (JQ.ofNat 2)) := by
    rw [JSNum.add_fin, show JSNum.ofNat 2 = .fin (JQ.ofNat 2) from rfl,
      JSNum.div_fin (by decide)]
  have wl : ((mx.add mn).div (JQ.ofNat 2)).WF := (wmx.add wmn).div (by decide)
  have vlq : ((mx.add mn).div (JQ.ofNat 2)).val = (mx.val + mn.val) / 2 := by
    rw [JQ.val_div (wmx.add wmn) (by decide) (by decide), JQ.val_add wmx wmn]
    norm_num [JQ.ofNat, JQ.val]
  have hl0 : 0 ≤ ((mx.add mn).div (JQ.ofNat 2)).val := by rw [vlq]; linarith
  have hl1 : ((mx.add mn).div (JQ.ofNat 2)).val ≤ 1 := by rw [vlq]; linarith
  simp only [hslFromChannels]
  rw [emx', emx, emn', emn, el, JSNum.seq_fin]
  by_cases heq : mx.beqv mn = true
  · rw [if_pos heq]
    refine ⟨(JQ.ofNat 0).mul (JQ.ofNat 360), (JQ.ofNat 0).mul (JQ.ofNat 100),
      ((mx.add mn).div (JQ.ofNat 2)).mul (JQ.ofNat 100), rfl,
      by decide, by decide, wl.mul (by decide), ?_, ?_, ?_, ?_, ?_⟩
    · norm_num [JQ.mul, JQ.ofNat, JQ.val]
    · norm_num [JQ.mul, JQ.ofNat, JQ.val]
    · norm_num [JQ.mul, JQ.ofNat, JQ.val]
    · rw [JQ.val_mul wl (by decide)]
      have h100 : (JQ.ofNat 100).val = 100 := by norm_num [JQ.ofNat, JQ.val]
      rw [h100]
      linarith
    · rw [JQ.val_mul wl (by decide)]
      have h100 : (JQ.ofNat 100).val = 100 := by norm_num [JQ.ofNat, JQ.val]
      rw [h100]
      linarith
  · rw [if_neg heq]
    have hne : mx.val ≠ mn.val := fun hv => heq ((JQ.beqv_iff wmx wmn).mpr hv)
    have hltq : mn.val < mx.val := lt_of_le_of_ne hmnmx (Ne.symm hne)
    have ed : JSNum.sub (.fin mx) (.fin mn) = .fin (mx.add mn.neg) := rfl
    have wd : (mx.add mn.neg).WF := wmx.add wmn.neg
    have hdv : (mx.add mn.neg).val = mx.val - mn.val := JQ.val_subm wmx wmn
    have hdpos : 0 < (mx.add mn.neg).val := by rw [hdv]; linarith
    have hdnum : (mx.add mn.neg).num ≠ 0 := JQ.num_ne_zero_of_val_pos hdpos
    rw [ed]
    obtain ⟨hq, ehq, whq, hh0, hh1⟩ := hslHue_wf hr hg hb wmx wd hdnum hdpos
      hrub hgub hbub (by rw [hdv]; linarith) (by rw [hdv]; linarith)
      (by rw [hdv]; linarith)
    obtain ⟨sq, esq, wsq, hs0, hs1⟩ := hslSat_wf wmx wmn wd wl hdnum hdv
      hmn0 hltq hmx1q vlq
    rw [ehq, esq]
    refine ⟨hq.mul (JQ.ofNat 360), sq.mul (JQ.ofNat 100),
      ((mx.add mn).div (JQ.ofNat 2)).mul (JQ.ofNat 100), rfl,
      whq.mul (by decide), wsq.mul (by decide), wl.mul (by decide),
      ?_, ?_, ?_, ?_, ?_⟩
    · rw [JQ.val_mul whq (by decide)]
      have hc : (JQ.ofNat 360).val = 360 := by norm_num [JQ.ofNat, JQ.val]
      rw [hc]
      linarith
    · rw [JQ.val_mul wsq (by decide)]
      have hc : (JQ.ofNat 100).val = 100 := by norm_num [JQ.ofNat, JQ.val]
      rw [hc]
      linarith
    · rw [JQ.val_mul wsq (by decide)]
      have hc : (JQ.ofNat 100).val = 100 := by norm_num [JQ.ofNat, JQ.val]
      rw [hc]
      linarith
    · rw [JQ.val_mul wl (by decide)]
      have hc : (JQ.ofNat 100).val = 100 := by norm_num [JQ.ofNat, JQ.val]
      rw [hc]
      linarith
    · rw [JQ.val_mul wl (by decide)]
      have hc : (JQ.ofNat 100).val = 100 := by norm_num [JQ.ofNat, JQ.val]
      rw [hc]
      linarith

theorem JQ.num_nonneg_iff {q : JQ} (hq : q.WF) : 0 ≤ q.val ↔ 0 ≤ q.num := by
  unfold JQ.val
  have hd : (0 : ℚ) < (q.den : ℚ) := by
    exact_mod_cast Nat.pos_of_ne_zero hq
  rw [div_nonneg_iff]
  constructor
  · rintro (⟨h1, _⟩ | ⟨_, h2⟩)
    · exact_mod_cast h1
    · nlinarith
  · intro h
    exact Or.inl ⟨by exact_mod_cast h, le_of_lt hd⟩

theorem JSNum.abs_fin_val {x : JQ} (hx : x.WF) :
    ∃ a : JQ, JSNum.abs (.fin x) = .fin a ∧ a.WF ∧ a.val = |x.val| := by
  refine ⟨⟨(Int.natAbs x.num : Int), x.den⟩, rfl, hx, ?_⟩
  unfold JQ.val
  have hd : (0 : ℚ) ≤ (x.den : ℚ) := by positivity
  rw [abs_div, abs_of_nonneg hd]
  congr 1
  rw [Int.cast_natAbs]
  exact_mod_cast rfl

theorem fmod2_wf {x : JQ} (hx : x.WF) (hx0 : 0 ≤ x.val) :
    ∃ m : JQ, JSNum.fmod (.fin x) (JSNum.ofNat 2) = .fin m ∧ m.WF ∧
      0 ≤ m.val ∧ m.val < 2 := by
  have h2 : (JQ.ofNat 2).num ≠ 0 := by decide
  have hstep : JSNum.fmod (.fin x) (JSNum.ofNat 2) =
      .fin (x.sub ((JQ.ofNat 2).mul (JQ.ofInt ((x.div (JQ.ofNat 2)).truncI)))) := by
    simp [JSNum.fmod, JSNum.ofNat, h2]
  have wdiv : (x.div (JQ.ofNat 2)).WF := hx.div h2
  have hdivval : (x.div (JQ.ofNat 2)).val = x.val / 2 := by
    rw [JQ.val_div hx (by decide) h2]
    norm_num [JQ.ofNat, JQ.val]
  have hnumnn : 0 ≤ (x.div (JQ.ofNat 2)).num := by
    rw [← JQ.num_nonneg_iff wdiv, hdivval]
    positivity
  have htrunc : (x.div (JQ.ofNat 2)).truncI = ⌊x.val / 2⌋ := by
    have heq : (x.div (JQ.ofNat 2)).truncI = (x.div (JQ.ofNat 2)).floorI := by
      unfold JQ.truncI JQ.floorI
      rw [Int.tdiv_eq_ediv hnumnn (by positivity),
        Int.fdiv_eq_ediv _ (by positivity)]
    rw [heq, JQ.floorI_eq wdiv, hdivval]
  have wmul : ((JQ.ofNat 2).mul (JQ.ofInt ((x.div (JQ.ofNat 2)).truncI))).WF :=
    JQ.WF.mul (by decide)
      (show (JQ.ofInt ((x.div (JQ.ofNat 2)).truncI)).WF from Nat.one_ne_zero)
  refine ⟨_, hstep, hx.sub wmul, ?_, ?_⟩
  · rw [JQ.val_sub hx wmul,
      JQ.val_mul (by decide)
        (show (JQ.ofInt ((x.div (JQ.ofNat 2)).truncI)).WF from Nat.one_ne_zero),
      htrunc, JQ.val_ofInt]
    have h2v : (JQ.ofNat 2).val = 2 := by norm_num [JQ.ofNat, JQ.val]
    rw [h2v]
    have := Int.floor_le (x.val / 2)
    linarith
  · rw [JQ.val_sub hx wmul,
      JQ.val_mul (by decide)
        (show (JQ.ofInt ((x.div (JQ.ofNat 2)).truncI)).WF from Nat.one_ne_zero),
      htrunc, JQ.val_ofInt]
    have h2v : (JQ.ofNat 2).val = 2 := by norm_num [JQ.ofNat, JQ.val]
    rw [h2v]
    have := Int.lt_floor_add_one (x.val / 2)
    linarith

theorem roundedHexChannel_wf {q : JQ} (hq : q.WF) (h0 : 0 ≤ q.val)
    (h255 : q.val ≤ 255) :
    ∃ c1 c2, roundedHexChannel (.fin q) = [c1, c2] ∧
      isLowerHexDigit c1 = true ∧ isLowerHexDigit c2 = true := by
  have hround : (JSNum.fin q).round = .fin (JQ.ofInt ((q.add ⟨1, 2⟩).floorI)) := rfl
  have whalf : (JQ.mk 1 2).WF := by decide
  have wsum : (q.add ⟨1, 2⟩).WF := hq.add whalf
  have hfl : (q.add ⟨1, 2⟩).floorI = ⌊q.val + 1 / 2⌋ := by
    rw [JQ.floorI_eq wsum, JQ.val_add hq whalf]
    norm_num [JQ.val]
  have hk0 : 0 ≤ (q.add ⟨1, 2⟩).floorI := by
    rw [hfl]
    positivity
  have hk255 : (q.add ⟨1, 2⟩).floorI < 256 := by
    rw [hfl]
    exact Int.floor_lt.mpr (by push_cast; linarith)
  set k := (q.add ⟨1, 2⟩).floorI with hkdef
  have hlt : k.natAbs < 256 := by omega
  have hint : intToStr16 (JQ.ofInt k).num = natToHexStr k.natAbs := by
    unfold intToStr16
    rw [if_neg (show ¬((JQ.ofInt k).num < 0) by simp [JQ.ofInt]; omega)]
    rfl
  have hfinal : roundedHexChannel (.fin q) = byteToHexPadded k.natAbs := by
    unfold roundedHexChannel
    rw [hround]
    show padStart2 (intToStr16 (JQ.ofInt k).num) = _
    rw [hint]
    rfl
  rw [hfinal, byteToHexPadded_eq hlt]
  exact ⟨_, _, rfl, isLowerHexDigit_hexDigitChar (by omega),
    isLowerHexDigit_hexDigitChar (by omega)⟩

theorem chanArg_wf {ch m : JQ} (wch : ch.WF) (wm : m.WF) (h1 : 0 ≤ ch.val)
    (h2 : 0 ≤ m.val) (h3 : ch.val + m.val ≤ 1) :
    ∃ q : JQ, JSNum.mul (JSNum.add (.fin ch) (.fin m)) (JSNum.ofNat 255) = .fin q ∧
      q.WF ∧ 0 ≤ q.val ∧ q.val ≤ 255 := by
  rw [JSNum.add_fin, show JSNum.ofNat 255 = .fin (JQ.ofNat 255) from rfl,
    JSNum.mul_fin]
  have wsum : (ch.add m).WF := wch.add wm
  refine ⟨_, rfl, wsum.mul (by decide), ?_, ?_⟩
  · rw [JQ.val_mul wsum (by decide), JQ.val_add wch wm]
    have : (JQ.ofNat 255).val = 255 := by norm_num [JQ.ofNat, JQ.val]
    rw [this]
    nlinarith
  · rw [JQ.val_mul wsum (by decide), JQ.val_add wch wm]
    have : (JQ.ofNat 255).val = 255 := by norm_num [JQ.ofNat, JQ.val]
    rw [this]
    nlinarith

theorem hexOut_wf {a b c : JQ} (wa : a.WF) (wb : b.WF) (wc : c.WF)
    (ha0 : 0 ≤ a.val) (ha1 : a.val ≤ 255) (hb0 : 0 ≤ b.val) (hb1 : b.val ≤ 255)
    (hc0 : 0 ≤ c.val) (hc1 : c.val ≤ 255) :
    isWellFormedHexColor (String.mk ('#' :: roundedHexChannel (.fin a) ++
      roundedHexChannel (.fin b) ++ roundedHexChannel (.fin c))) = true := by
  obtain ⟨a1, a2, hea, hha1, hha2⟩ := roundedHexChannel_wf wa ha0 ha1
  obtain ⟨b1, b2, heb, hhb1, hhb2⟩ := roundedHexChannel_wf wb hb0 hb1
  obtain ⟨c1, c2, hec, hhc1, hhc2⟩ := roundedHexChannel_wf wc hc0 hc1
  rw [hea, heb, hec]
  simp [isWellFormedHexColor, hha1, hha2, hhb1, hhb2, hhc1, hhc2]

theorem hexOutApplied {ch1 ch2 ch3 m : JQ} (w1 : ch1.WF) (w2 : ch2.WF)
    (w3 : ch3.WF) (wm : m.WF) (hm0 : 0 ≤ m.val)
    (h10 : 0 ≤ ch1.val) (h11 : ch1.val + m.val ≤ 1)
    (h20 : 0 ≤ ch2.val) (h21 : ch2.val + m.val ≤ 1)
    (h30 : 0 ≤ ch3.val) (h31 : ch3.val + m.val ≤ 1) :
    isWellFormedHexColor (String.mk ('#' ::
      roundedHexChannel (JSNum.mul (JSNum.add (.fin ch1) (.fin m)) (JSNum.ofNat 255)) ++
      roundedHexChannel (JSNum.mul (JSNum.add (.fin ch2) (.fin m)) (JSNum.ofNat 255)) ++
      roundedHexChannel (JSNum.mul (JSNum.add (.fin ch3) (.fin m)) (JSNum.ofNat 255)))) =
      true := by
  obtain ⟨q1, e1, wq1, hq10, hq11⟩ := chanArg_wf w1 wm h10 hm0 h11
  obtain ⟨q2, e2, wq2, hq20, hq21⟩ := chanArg_wf w2 wm h20 hm0 h21
  obtain ⟨q3, e3, wq3, hq30, hq31⟩ := chanArg_wf w3 wm h30 hm0 h31
  rw [e1, e2, e3]
  exact hexOut_wf wq1 wq2 wq3 hq10 hq11 hq20 hq21 hq30 hq31

set_option maxHeartbeats 1000000 in
theorem hslToHex_wf {h s l : JQ} (wh : h.WF) (ws : s.WF) (wl : l.WF)
    (hh0 : 0 ≤ h.val) (hs0 : 0 ≤ s.val) (hs1 : s.val ≤ 100)
    (hl0 : 0 ≤ l.val) (hl1 : l.val ≤ 100) :
    isWellFormedHexColor (hslToHex (.fin h) (.fin s) (.fin l)) = true := by
  simp only [hslToHex]
  rw [show JSNum.ofNat 100 = .fin (JQ.ofNat 100) from rfl]
  rw [show (JSNum.fin s).div (.fin (JQ.ofNat 100)) = .fin (s.div (JQ.ofNat 100))
    from JSNum.div_fin (by decide)]
  rw [show (JSNum.fin l).div (.fin (JQ.ofNat 100)) = .fin (l.div (JQ.ofNat 100))
    from JSNum.div_fin (by decide)]
  rw [show JSNum.ofNat 2 = .fin (JQ.ofNat 2) from rfl,
    show JSNum.ofNat 1 = .fin (JQ.ofNat 1) from rfl]
  rw [show (JSNum.fin (JQ.ofNat 2)).mul (.fin (l.div (JQ.ofNat 100))) =
    .fin ((JQ.ofNat 2).mul (l.div (JQ.ofNat 100))) from rfl]
  rw [show (JSNum.fin ((JQ.ofNat 2).mul (l.div (JQ.ofNat 100)))).sub
      (.fin (JQ.ofNat 1)) =
    .fin (((JQ.ofNat 2).mul (l.div (JQ.ofNat 100))).add (JQ.ofNat 1).neg) from rfl]
  have ws1 : (s.div (JQ.ofNat 100)).WF := ws.div (by decide)
  have wl1 : (l.div (JQ.ofNat 100)).WF := wl.div (by decide)
  obtain ⟨aq, ea, wa, va⟩ :=
    JSNum.abs_fin_val (x := ((JQ.ofNat 2).mul (l.div (JQ.ofNat 100))).add
      (JQ.ofNat 1).neg) (((by decide : (JQ.ofNat 2).WF).mul wl1).add (by decide))
  rw [ea]
  rw [show (JSNum.fin (JQ.ofNat 1)).sub (.fin aq) =
    .fin ((JQ.ofNat 1).add aq.neg) from rfl]
  rw [show (JSNum.fin ((JQ.ofNat 1).add aq.neg)).mul (.fin (s.div (JQ.ofNat 100))) =
    .fin (((JQ.ofNat 1).add aq.neg).mul (s.div (JQ.ofNat 100))) from rfl]
  rw [show JSNum.ofNat 60 = .fin (JQ.ofNat 60) from rfl]
  rw [show (JSNum.fin h).div (.fin (JQ.ofNat 60)) = .fin (h.div (JQ.ofNat 60))
    from JSNum.div_fin (by decide)]
  have wh60 : (h.div (JQ.ofNat 60)).WF := wh.div (by decide)
  have vh60 : (h.div (JQ.ofNat 60)).val = h.val / 60 := by
    rw [JQ.val_div wh (by decide) (by decide)]
    norm_num [JQ.ofNat, JQ.val]
  obtain ⟨modq, emod, wmod, hmod0, hmod2⟩ :=
    fmod2_wf wh60 (by rw [vh60]; positivity)
  rw [show JSNum.ofNat 2 = .fin (JQ.ofNat 2) from rfl] at emod
  rw [emod]
  rw [show (JSNum.fin modq).sub (.fin (JQ.ofNat 1)) =
    .fin (modq.add (JQ.ofNat 1).neg) from rfl]
  obtain ⟨aq2, ea2, wa2, va2⟩ :=
    JSNum.abs_fin_val (x := modq.add (JQ.ofNat 1).neg) (wmod.add (by decide))
  rw [ea2]
  rw [show (JSNum.fin (JQ.ofNat 1)).sub (.fin aq2) =
    .fin ((JQ.ofNat 1).add aq2.neg) from rfl]
  rw [show (JSNum.fin (((JQ.ofNat 1).add aq.neg).mul (s.div (JQ.ofNat 100)))).mul
      (.fin ((JQ.ofNat 1).add aq2.neg)) =
    .fin ((((JQ.ofNat 1).add aq.neg).mul (s.div (JQ.ofNat 100))).mul
      ((JQ.ofNat 1).add aq2.neg)) from rfl]
  rw [show (JSNum.fin (((JQ.ofNat 1).add aq.neg).mul (s.div (JQ.ofNat 100)))).div
      (.fin (JQ.ofNat 2)) =
    .fin ((((JQ.ofNat 1).add aq.neg).mul (s.div (JQ.ofNat 100))).div (JQ.ofNat 2))
    from JSNum.div_fin (by decide)]
  rw [show (JSNum.fin (l.div (JQ.ofNat 100))).sub
      (.fin ((((JQ.ofNat 1).add aq.neg).mul (s.div (JQ.ofNat 100))).div (JQ.ofNat 2))) =
    .fin ((l.div (JQ.ofNat 100)).add
      ((((JQ.ofNat 1).add aq.neg).mul (s.div (JQ.ofNat 100))).div (JQ.ofNat 2)).neg)
    from rfl]
  rw [show (JSNum.fin h).lt (.fin (JQ.ofNat 60)) = h.blt (JQ.ofNat 60) from rfl,
    show (JSNum.fin h).lt (JSNum.ofNat 120) = h.blt (JQ.ofNat 120) from rfl,
    show (JSNum.fin h).lt (JSNum.ofNat 180) = h.blt (JQ.ofNat 180) from rfl,
    show (JSNum.fin h).lt (JSNum.ofNat 240) = h.blt (JQ.ofNat 240) from rfl,
    show (JSNum.fin h).lt (JSNum.ofNat 300) = h.blt (JQ.ofNat 300) from rfl]
  set s1q := s.div (JQ.ofNat 100) with hs1q
  set l1q := l.div (JQ.ofNat 100) with hl1q
  set cq := ((JQ.ofNat 1).add aq.neg).mul s1q with hcq
  set xq := cq.mul ((JQ.ofNat 1).add aq2.neg) with hxq
  set mq := l1q.add (cq.div (JQ.ofNat 2)).neg with hmq
  have h100v : (JQ.ofNat 100).val = 100 := by norm_num [JQ.ofNat, JQ.val]
  have vs1 : s1q.val = s.val / 100 := by
    rw [hs1q, JQ.val_div ws (by decide) (by decide), h100v]
  have vl1 : l1q.val = l.val / 100 := by
    rw [hl1q, JQ.val_div wl (by decide) (by decide), h100v]
  have hs10 : 0 ≤ s1q.val := by rw [vs1]; positivity
  have hs11 : s1q.val ≤ 1 := by rw [vs1]; linarith
  have hl10 : 0 ≤ l1q.val := by rw [vl1]; positivity
  have hl11 : l1q.val ≤ 1 := by rw [vl1]; linarith
  have wcq : cq.WF := ((by decide : (JQ.ofNat 1).WF).add wa.neg).mul ws1
  have hvsub : (((JQ.ofNat 2).mul l1q).add (JQ.ofNat 1).neg).val =
      2 * l1q.val - 1 := by
    rw [JQ.val_subm ((by decide : (JQ.ofNat 2).WF).mul wl1) (by decide),
      JQ.val_mul (by decide) wl1]
    norm_num [JQ.ofNat, JQ.val]
  have vaq : aq.val = |2 * l1q.val - 1| := by rw [va, hvsub]
  have vcq : cq.val = (1 - |2 * l1q.val - 1|) * s1q.val := by
    rw [hcq, JQ.val_mul ((by decide : (JQ.ofNat 1).WF).add wa.neg) ws1,
      JQ.val_subm (by decide) wa, vaq]
    norm_num [JQ.ofNat, JQ.val]
  have habs1 : |2 * l1q.val - 1| ≤ 1 := by
    rw [abs_le]; constructor <;> linarith
  have habsnn : 0 ≤ |2 * l1q.val - 1| := abs_nonneg _
  have hc0 : 0 ≤ cq.val := by
    rw [vcq]
    apply mul_nonneg _ hs10
    linarith
  have hc2l : cq.val ≤ 2 * l1q.val := by
    rw [vcq]
    have hub : (1 - |2 * l1q.val - 1|) * s1q.val ≤ 1 - |2 * l1q.val - 1| := by
      nlinarith
    have hlow : 1 - |2 * l1q.val - 1| ≤ 2 * l1q.val := by
      have := neg_abs_le (2 * l1q.val - 1)
      linarith
    linarith
  have hc2l2 : cq.val ≤ 2 - 2 * l1q.val := by
    rw [vcq]
    have hub : (1 - |2 * l1q.val - 1|) * s1q.val ≤ 1 - |2 * l1q.val - 1| := by
      nlinarith
    have hup : 1 - |2 * l1q.val - 1| ≤ 2 - 2 * l1q.val := by
      have := le_abs_self (2 * l1q.val - 1)
      linarith
    linarith
  have hvsub2 : (modq.add (JQ.ofNat 1).neg).val = modq.val - 1 := by
    rw [JQ.val_subm wmod (by decide)]
    norm_num [JQ.ofNat, JQ.val]
  have va2v : aq2.val = |modq.val - 1| := by rw [va2, hvsub2]
  have habs2 : |modq.val - 1| ≤ 1 := by
    rw [abs_le]; constructor <;> linarith
  have hfacv : ((JQ.ofNat 1).add aq2.neg).val = 1 - |modq.val - 1| := by
    rw [JQ.val_subm (by decide) wa2, va2v]
    norm_num [JQ.ofNat, JQ.val]
  have wfac : ((JQ.ofNat 1).add aq2.neg).WF :=
    (by decide : (JQ.ofNat 1).WF).add wa2.neg
  have wxq : xq.WF := wcq.mul wfac
  have hx0 : 0 ≤ xq.val := by
    rw [hxq, JQ.val_mul wcq wfac, hfacv]
    apply mul_nonneg hc0
    linarith
  have hxc : xq.val ≤ cq.val := by
    rw [hxq, JQ.val_mul wcq wfac, hfacv]
    have hf0 : 0 ≤ 1 - |modq.val - 1| := by linarith [abs_nonneg (modq.val - 1)]
    nlinarith [abs_nonneg (modq.val - 1)]
  have wmq : mq.WF := wl1.add (wcq.div (by decide)).neg
  have vmq : mq.val = l1q.val - cq.val / 2 := by
    rw [hmq, JQ.val_subm wl1 (wcq.div (by decide)),
      JQ.val_div wcq (by decide) (by decide)]
    norm_num [JQ.ofNat, JQ.val]
  have hm0 : 0 ≤ mq.val := by rw [vmq]; linarith
  have hcm : cq.val + mq.val ≤ 1 := by rw [vmq]; linarith
  have hxm : xq.val + mq.val ≤ 1 := by linarith
  have hz0 : 0 ≤ (JQ.ofNat 0).val := by norm_num [JQ.ofNat, JQ.val]
  have hzm : (JQ.ofNat 0).val + mq.val ≤ 1 := by
    have hzv : (JQ.ofNat 0).val = 0 := by norm_num [JQ.ofNat, JQ.val]
    rw [hzv]
    linarith
  by_cases h1b : h.blt (JQ.ofNat 60) = true
  · rw [if_pos h1b]
    exact hexOutApplied wcq wxq (by decide) wmq hm0 hc0 hcm hx0 hxm hz0 hzm
  · rw [if_neg h1b]
    by_cases h2b : h.blt (JQ.ofNat 120) = true
    · rw [if_pos h2b]
      exact hexOutApplied wxq wcq (by decide) wmq hm0 hx0 hxm hc0 hcm hz0 hzm
    · rw [if_neg h2b]
      by_cases h3b : h.blt (JQ.ofNat 180) = true
      · rw [if_pos h3b]
        exact hexOutApplied (by decide) wcq wxq wmq hm0 hz0 hzm hc0 hcm hx0 hxm
      · rw [if_neg h3b]
        by_cases h4b : h.blt (JQ.ofNat 240) = true
        · rw [if_pos h4b]
          exact hexOutApplied (by decide) wxq wcq wmq hm0 hz0 hzm hx0 hxm hc0 hcm
        · rw [if_neg h4b]
          by_cases h5b : h.blt (JQ.ofNat 300) = true
          · rw [if_pos h5b]
            exact hexOutApplied wxq (by decide) wcq wmq hm0 hx0 hxm hz0 hzm hc0 hcm
          · rw [if_neg h5b]
            exact hexOutApplied wcq (by decide) wxq wmq hm0 hc0 hcm hz0 hzm hx0 hxm

theorem hexToHsl_wf {c : String} (h : isWellFormedHexColor c = true) :
    ∃ h0 s0 l0 : JQ, hexToHsl c = (.fin h0, .fin s0, .fin l0) ∧
      h0.WF ∧ s0.WF ∧ l0.WF ∧ 0 ≤ h0.val ∧ 0 ≤ s0.val ∧ s0.val ≤ 100 ∧
      0 ≤ l0.val ∧ l0.val ≤ 100 := by
  obtain ⟨q1, q2, q3, e, w1, w2, w3, b10, b11, b20, b21, b30, b31⟩ :=
    hslChannels_wf h
  obtain ⟨h0, s0, l0, e2, wh, ws, wl, hh0, hs0, hs1, hl0, hl1⟩ :=
    hslFromChannels_wf w1 w2 w3 b10 b11 b20 b21 b30 b31
  refine ⟨h0, s0, l0, ?_, wh, ws, wl, hh0, hs0, hs1, hl0, hl1⟩
  simp only [hexToHsl]
  rw [e]
  exact e2

theorem darkenLight_wf {l0 f : JQ} (wl : l0.WF) (wf : f.WF)
    (hl0 : 0 ≤ l0.val) (hl1 : l0.val ≤ 100) (hf0 : 0 ≤ f.val) (hf1 : f.val ≤ 1) :
    ∃ lq : JQ, JSNum.max2 (JSNum.ofNat 0)
      ((JSNum.fin l0).mul ((JSNum.ofNat 1).sub (.fin f))) = .fin lq ∧
      lq.WF ∧ 0 ≤ lq.val ∧ lq.val ≤ 100 := by
  rw [show (JSNum.ofNat 1).sub (.fin f) = .fin ((JQ.ofNat 1).add f.neg) from rfl]
  rw [show (JSNum.fin l0).mul (.fin ((JQ.ofNat 1).add f.neg)) =
    .fin (l0.mul ((JQ.ofNat 1).add f.neg)) from rfl]
  rw [show JSNum.ofNat 0 = .fin (JQ.ofNat 0) from rfl]
  have wp : (l0.mul ((JQ.ofNat 1).add f.neg)).WF :=
    wl.mul ((show (JQ.ofNat 1).WF by decide).add wf.neg)
  obtain ⟨m, em, wm, vm⟩ :=
    JSNum.max2_fin_val (show (JQ.ofNat 0).WF by decide) wp
  have h0v : (JQ.ofNat 0).val = 0 := by norm_num [JQ.ofNat, JQ.val]
  have hpv : (l0.mul ((JQ.ofNat 1).add f.neg)).val = l0.val * (1 - f.val) := by
    rw [JQ.val_mul wl ((show (JQ.ofNat 1).WF by decide).add wf.neg),
      JQ.val_subm (show (JQ.ofNat 1).WF by decide) wf]
    norm_num [JQ.ofNat, JQ.val]
  refine ⟨m, em, wm, ?_, ?_⟩
  · rw [vm, h0v]
    exact le_max_left _ _
  · rw [vm, h0v, hpv]
    apply max_le (by norm_num)
    nlinarith [mul_nonneg hl0 hf0]

theorem lightenLight_wf {l0 f : JQ} (wl : l0.WF) (wf : f.WF)
    (hl0 : 0 ≤ l0.val) (hf0 : 0 ≤ f.val) :
    ∃ lq : JQ, JSNum.min2 (JSNum.ofNat 100)
      ((JSNum.fin l0).mul ((JSNum.ofNat 1).add (.fin f))) = .fin lq ∧
      lq.WF ∧ 0 ≤ lq.val ∧ lq.val ≤ 100 := by
  rw [show (JSNum.ofNat 1).add (.fin f) = .fin ((JQ.ofNat 1).add f) from rfl]
  rw [show (JSNum.fin l0).mul (.fin ((JQ.ofNat 1).add f)) =
    .fin (l0.mul ((JQ.ofNat 1).add f)) from rfl]
  rw [show JSNum.ofNat 100 = .fin (JQ.ofNat 100) from rfl]
  have wp : (l0.mul ((JQ.ofNat 1).add f)).WF :=
    wl.mul ((show (JQ.ofNat 1).WF by decide).add wf)
  obtain ⟨m, em, wm, vm⟩ :=
    JSNum.min2_fin_val (show (JQ.ofNat 100).WF by decide) wp
  have h100v : (JQ.ofNat 100).val = 100 := by norm_num [JQ.ofNat, JQ.val]
  have hpv : (l0.mul ((JQ.ofNat 1).add f)).val = l0.val * (1 + f.val) := by
    rw [JQ.val_mul wl ((show (JQ.ofNat 1).WF by decide).add wf),
      JQ.val_add (show (JQ.ofNat 1).WF by decide) wf]
    norm_num [JQ.ofNat, JQ.val]
  refine ⟨m, em, wm, ?_, ?_⟩
  · rw [vm, h100v, hpv]
    apply le_min (by norm_num)
    nlinarith
  · rw [vm, h100v]
    exact min_le_left _ _

/-- C9: amended.  `darkenColor` and `lightenColor` never signal any
error: on the malformed input `"#zzzzzz"` they return the ordinary string
`"#NaNNaNNaN"` for every fraction (the unchecked `parseInt` NaN propagates
through the whole pipeline), and on every well-formed `#rrggbb` input with
a fraction in [0,1] they are total and return a well-formed `#rrggbb`
color; no `InvalidColorFormat` error value exists anywhere. -/
theorem claim_C9_amended :
    (∀ f : JQ, darkenColor "#zzzzzz" f = "#NaNNaNNaN") ∧
    (∀ f : JQ, lightenColor "#zzzzzz" f = "#NaNNaNNaN") ∧
    (∀ (c : String) (f : JQ), isWellFormedHexColor c = true → f.WF →
      0 ≤ f.val → f.val ≤ 1 →
      isWellFormedHexColor (darkenColor c f) = true ∧
      isWellFormedHexColor (lightenColor c f) = true) := by
  refine ⟨fun f => rfl, fun f => rfl, fun c f hc wf hf0 hf1 => ?_⟩
  obtain ⟨h0, s0, l0, e, wh, ws, wl, hh0, hs0, hs1, hl0, hl1⟩ := hexToHsl_wf hc
  constructor
  · simp only [darkenColor]
    rw [e]
    show isWellFormedHexColor (hslToHex (.fin h0) (.fin s0)
      (JSNum.max2 (JSNum.ofNat 0)
        ((JSNum.fin l0).mul ((JSNum.ofNat 1).sub (.fin f))))) = true
    obtain ⟨lq, em, wq, hq0, hq1⟩ := darkenLight_wf wl wf hl0 hl1 hf0 hf1
    rw [em]
    exact hslToHex_wf wh ws wq hh0 hs0 hs1 hq0 hq1
  · simp only [lightenColor]
    rw [e]
    show isWellFormedHexColor (hslToHex (.fin h0) (.fin s0)
      (JSNum.min2 (JSNum.ofNat 100)
        ((JSNum.fin l0).mul ((JSNum.ofNat 1).add (.fin f))))) = true
    obtain ⟨lq, em, wq, hq0, hq1⟩ := lightenLight_wf wl wf hl0 hf0
    rw [em]
    exact hslToHex_wf wh ws wq hh0 hs0 hs1 hq0 hq1

/-- C9 witness: concrete instances of the amended statement at the
malformed input `"#zzzzzz"` and the well-formed input `"#50fa7b"` with
fraction 1/4. -/
theorem claim_C9_witness :
    darkenColor "#zzzzzz" ⟨1, 4⟩ = "#NaNNaNNaN" ∧
    lightenColor "#zzzzzz" ⟨1, 4⟩ = "#NaNNaNNaN" ∧
    isWellFormedHexColor (darkenColor "#50fa7b" ⟨1, 4⟩) = true ∧
    isWellFormedHexColor (lightenColor "#50fa7b" ⟨1, 4⟩) = true := by
  refine ⟨claim_C9_amended.1 ⟨1, 4⟩, claim_C9_amended.2.1 ⟨1, 4⟩, ?_, ?_⟩
  · exact (claim_C9_amended.2.2 "#50fa7b" ⟨1, 4⟩ (by decide) (by decide)
      (by norm_num [JQ.val]) (by norm_num [JQ.val])).1
  · exact (claim_C9_amended.2.2 "#50fa7b" ⟨1, 4⟩ (by decide) (by decide)
      (by norm_num [JQ.val]) (by norm_num [JQ.val])).2
